import Mathlib

/-!
Verification development for `token_snapshot.py` (MintRewardsSnapshotTool).

The Python class `TokenSnapshot` is shallowly embedded: the mutable fields of
`self` become a `TokenSnapshot` structure threaded through pure functions,
wall-clock times and delays are rationals (Python floats here only ever see
exact arithmetic: additions, doublings, `min`, comparisons), `datetime.now()`
and `sleep` are modelled by an explicit clock that advances by the slept
amount, the network is a script (`List NetEvent`) consumed one element per
actual HTTP attempt, and `random.uniform(0, jitter_range)` is an ambient
stream `j : Nat -> Rat` consumed in program order.  Endpoint URLs are
abstracted to natural-number identifiers.
-/

set_option maxHeartbeats 1000000

/-- The mutable state of the Python `TokenSnapshot` object (`__init__`,
lines 29-65 of `token_snapshot.py`).  Only fields read or written by the
functions under study are kept; log-only data is dropped. -/
structure TokenSnapshot where
  rpcEndpoints : List ℕ
  currentRpcIndex : ℕ
  rpcUrl : ℕ
  requestDelay : ℚ
  maxRetries : ℕ
  retryDelay : ℚ
  jitterRange : ℚ
  errorThreshold : ℕ
  circuitCooldown : ℚ
  errorWindow : ℚ
  errorTimestamps : List ℚ
  circuitBroken : Bool
  circuitBreakTime : Option ℚ
  endpointErrors : ℕ → ℕ
  endpointCooldown : ℚ
  endpointLastError : ℕ → Option ℚ
  requestCount : ℕ
  lastRequestTime : Option ℚ
  errorCount : ℕ

/-- The tail of `check_circuit_breaker` (lines 123-130): engage the breaker
when the pruned error-timestamp count has reached the threshold. -/
def breakerEngage (s : TokenSnapshot) (t : ℚ) : TokenSnapshot × Bool :=
  if s.errorThreshold ≤ s.errorTimestamps.length then
    ({ s with circuitBroken := true, circuitBreakTime := some t }, true)
  else
    (s, false)

/-- Model of `check_circuit_breaker` (lines 106-130).  `t` is `datetime.now()`.
When `circuitBroken` holds, `circuitBreakTime` is always `some` in any
reachable state; the `getD t` default makes the model total. -/
def check_circuit_breaker (s : TokenSnapshot) (t : ℚ) : TokenSnapshot × Bool :=
  let s1 := { s with
    errorTimestamps := s.errorTimestamps.filter (fun ts => decide (t - ts < s.errorWindow)) }
  if s1.circuitBroken then
    if s1.circuitCooldown ≤ t - s1.circuitBreakTime.getD t then
      breakerEngage { s1 with circuitBroken := false, errorTimestamps := [] } t
    else
      (s1, true)
  else
    breakerEngage s1 t

/-- The cooldown test of `rotate_rpc_endpoint` (line 142-143): an endpoint is
usable when it has no recorded error or its last error is at least
`endpoint_cooldown` seconds old. -/
def endpointAvailable (s : TokenSnapshot) (t : ℚ) (ep : ℕ) : Bool :=
  match s.endpointLastError ep with
  | none => true
  | some le => decide (s.endpointCooldown ≤ t - le)

/-- The `for _ in range(len(self.rpc_endpoints))` loop of
`rotate_rpc_endpoint` (lines 137-146), with the remaining iteration count as
fuel.  The third component counts how many candidate endpoints were
inspected. -/
def rotateLoop (t : ℚ) : TokenSnapshot → ℕ → TokenSnapshot × Bool × ℕ
  | s, 0 => (s, false, 0)
  | s, fuel + 1 =>
    let idx := (s.currentRpcIndex + 1) % s.rpcEndpoints.length
    let s1 := { s with currentRpcIndex := idx }
    let ep := s1.rpcEndpoints.getD idx 0
    if endpointAvailable s1 t ep then
      ({ s1 with rpcUrl := ep }, true, 1)
    else
      let r := rotateLoop t s1 fuel
      (r.1, r.2.1, r.2.2 + 1)

/-- Model of `rotate_rpc_endpoint` (lines 132-149).  `t` is `datetime.now()`. -/
def rotate_rpc_endpoint (s : TokenSnapshot) (t : ℚ) : TokenSnapshot × Bool :=
  let r := rotateLoop t s s.rpcEndpoints.length
  (r.1, r.2.1)

/-- Number of candidate endpoints inspected by one `rotate_rpc_endpoint`
call. -/
def rotateInspections (s : TokenSnapshot) (t : ℚ) : ℕ :=
  (rotateLoop t s s.rpcEndpoints.length).2.2

/-- The round-robin candidate order inspected by `rotate_rpc_endpoint` when
`n` loop iterations remain: the endpoints at indices `currentRpcIndex + 1`,
`currentRpcIndex + 2`, ... (mod the list length). -/
def rotationOrderFrom : TokenSnapshot → ℕ → List ℕ
  | _, 0 => []
  | s, n + 1 =>
    let idx := (s.currentRpcIndex + 1) % s.rpcEndpoints.length
    s.rpcEndpoints.getD idx 0 :: rotationOrderFrom { s with currentRpcIndex := idx } n

/-- The full round-robin candidate order of one `rotate_rpc_endpoint` call:
one complete pass starting after the current index, wrapping after the last
entry. -/
def rotationOrder (s : TokenSnapshot) : List ℕ :=
  rotationOrderFrom s s.rpcEndpoints.length

/-- One scripted network outcome for a single HTTP attempt inside
`make_rpc_request`: a response whose JSON has no `error` key, a response with
`error.code`, or a raised exception (transport failure). -/
inductive NetEvent where
  | ok (v : ℕ)
  | err (code : ℤ)
  | exn
deriving DecidableEq

/-- A parsed RPC response as returned by `make_rpc_request`: either the
success envelope or the error envelope (the Python code returns the raw
`result` dict in both cases). -/
inductive RpcResult where
  | ok (v : ℕ)
  | err (code : ℤ)
deriving DecidableEq

/-- Return value of one logical `make_rpc_request` call: `ret (some r)` for a
returned response envelope, `ret none` for Python `None` (exception path with
retries exhausted), `outOfScript` when the scripted network trace ran out. -/
inductive CallOutcome where
  | ret (r : Option RpcResult)
  | outOfScript
deriving DecidableEq

/-- Observable trace events of a `make_rpc_request` run: the pre-request
sleep computed for each attempt (line 187-194), each attempt with its retry
count, and each `rotate_rpc_endpoint` call with its result. -/
inductive TraceEv where
  | sleep (q : ℚ)
  | attempt (rc : ℕ) (ev : NetEvent)
  | rotated (ok : Bool)
deriving DecidableEq

/-- Execution context threaded through `make_rpc_request`: governor state,
current wall-clock time, next jitter-stream index. -/
structure Exec where
  st : TokenSnapshot
  now : ℚ
  ji : ℕ

/-- Minimum of two rationals, written with an explicit comparison so that it
evaluates by kernel reduction (used for `min(self.request_delay * 2.0,
120.0)` on line 169). -/
def ratMin (a b : ℚ) : ℚ := if a ≤ b then a else b

/-- Recording of an RPC-level error (lines 212-215): global error counter,
breaker timestamp, per-endpoint error count and last-error stamp.  `tEntry`
is the `current_time` captured at function entry (line 153). -/
def recordRpcError (s : TokenSnapshot) (tEntry : ℚ) : TokenSnapshot :=
  { s with
    errorCount := s.errorCount + 1
    errorTimestamps := s.errorTimestamps ++ [tEntry]
    endpointErrors := Function.update s.endpointErrors s.rpcUrl (s.endpointErrors s.rpcUrl + 1)
    endpointLastError := Function.update s.endpointLastError s.rpcUrl (some tEntry) }

/-- Recording of a transport-level exception (lines 237-238): global error
counter and breaker timestamp only. -/
def recordExn (s : TokenSnapshot) (tEntry : ℚ) : TokenSnapshot :=
  { s with
    errorCount := s.errorCount + 1
    errorTimestamps := s.errorTimestamps ++ [tEntry] }

/-- Lines 155-161 of `make_rpc_request`: the circuit-breaker check, with a
cooldown sleep and one endpoint-rotation attempt when the breaker blocks. -/
def breakerPhase (e : Exec) : Exec × List TraceEv :=
  let cb := check_circuit_breaker e.st e.now
  if cb.2 then
    let waitTime := cb.1.circuitBreakTime.getD e.now + cb.1.circuitCooldown - e.now
    let rot := rotate_rpc_endpoint cb.1 (e.now + waitTime)
    (⟨rot.1, e.now + waitTime, e.ji⟩, [TraceEv.rotated rot.2])
  else
    (⟨cb.1, e.now, e.ji⟩, [])

/-- Lines 163-194 of `make_rpc_request`, after the breaker phase: adaptive
doubling of `request_delay` when `error_count > 0`, minimum inter-request
spacing relative to the entry time, `request_count` increment, and the
per-attempt sleep `request_delay * 3 ^ retry_count + jitter`. -/
def rpcPrelude (j : ℕ → ℚ) (e : Exec) (rc : ℕ) : Exec × List TraceEv :=
  let e1 := breakerPhase e
  let s2 :=
    if 0 < e1.1.st.errorCount then
      { e1.1.st with requestDelay := ratMin (e1.1.st.requestDelay * 2) 120 }
    else e1.1.st
  let now2 :=
    match e1.1.st.lastRequestTime with
    | some lt => if e.now - lt < s2.requestDelay
                 then e1.1.now + (s2.requestDelay - (e.now - lt))
                 else e1.1.now
    | none => e1.1.now
  let s3 := { s2 with requestCount := s2.requestCount + 1 }
  let sleepTime := s3.requestDelay * 3 ^ rc + j e1.1.ji
  (⟨s3, now2 + sleepTime, e1.1.ji + 1⟩, e1.2 ++ [TraceEv.sleep sleepTime])

/-- Model of `make_rpc_request` (lines 151-246) over a scripted network trace; each
recursive retry consumes the tail of the script, so the recursion is
structural.  The emitted `TraceEv` list is this call's own trace. -/
def make_rpc_request (j : ℕ → ℚ) (e : Exec) (rc : ℕ) :
    List NetEvent → Exec × CallOutcome × List TraceEv
  | [] => (e, CallOutcome.outOfScript, [])
  | ev :: rest =>
    let p := rpcPrelude j e rc
    let e1 := p.1
    match ev with
    | NetEvent.ok v =>
      (⟨{ e1.st with lastRequestTime := some e1.now }, e1.now, e1.ji⟩,
        CallOutcome.ret (some (RpcResult.ok v)),
        p.2 ++ [TraceEv.attempt rc (NetEvent.ok v)])
    | NetEvent.err code =>
      let st2 := recordRpcError { e1.st with lastRequestTime := some e1.now } e.now
      let tr2 := p.2 ++ [TraceEv.attempt rc (NetEvent.err code)]
      if code = -32005 ∨ code = 429 then
        let rot := rotate_rpc_endpoint st2 e1.now
        let tr3 := tr2 ++ [TraceEv.rotated rot.2]
        if rot.2 then
          let r := make_rpc_request j ⟨rot.1, e1.now, e1.ji⟩ rc rest
          (r.1, r.2.1, tr3 ++ r.2.2)
        else if rc < rot.1.maxRetries then
          let waitTime := rot.1.retryDelay * 3 ^ rc + j e1.ji
          let r := make_rpc_request j ⟨rot.1, e1.now + waitTime, e1.ji + 1⟩ (rc + 1) rest
          (r.1, r.2.1, tr3 ++ r.2.2)
        else
          (⟨rot.1, e1.now, e1.ji⟩, CallOutcome.ret (some (RpcResult.err code)), tr3)
      else
        (⟨st2, e1.now, e1.ji⟩, CallOutcome.ret (some (RpcResult.err code)), tr2)
    | NetEvent.exn =>
      let st2 := recordExn e1.st e.now
      let tr2 := p.2 ++ [TraceEv.attempt rc NetEvent.exn]
      if rc < st2.maxRetries then
        let waitTime := st2.retryDelay * 3 ^ rc
        let r := make_rpc_request j ⟨st2, e1.now + waitTime, e1.ji⟩ (rc + 1) rest
        (r.1, r.2.1, tr2 ++ r.2.2)
      else
        (⟨st2, e1.now, e1.ji⟩, CallOutcome.ret none, tr2)

/-- The attempts of a trace: retry count and network outcome of each actual
HTTP attempt, in order. -/
def attemptsOf : List TraceEv → List (ℕ × NetEvent)
  | [] => []
  | TraceEv.attempt rc ev :: tr => (rc, ev) :: attemptsOf tr
  | TraceEv.sleep _ :: tr => attemptsOf tr
  | TraceEv.rotated _ :: tr => attemptsOf tr

/-- The per-attempt sleep values of a trace up to (excluding) the first
successful endpoint rotation. -/
def sleepsBeforeRot : List TraceEv → List ℚ
  | [] => []
  | TraceEv.sleep q :: tr => q :: sleepsBeforeRot tr
  | TraceEv.rotated true :: _ => []
  | TraceEv.rotated false :: tr => sleepsBeforeRot tr
  | TraceEv.attempt _ _ :: tr => sleepsBeforeRot tr

/-- Whether a trace contains a successful rotation. -/
def hasRotTrue (l : List TraceEv) : Bool :=
  l.any (fun x => x = TraceEv.rotated true)

/-- Total per-endpoint error count, summed over the configured endpoint
list. -/
def epErrTotal (s : TokenSnapshot) : ℕ :=
  (s.rpcEndpoints.map s.endpointErrors).sum

/-- Whether a scripted attempt outcome is a failure (RPC error or
exception). -/
def isFailEv : NetEvent → Bool
  | NetEvent.ok _ => false
  | NetEvent.err _ => true
  | NetEvent.exn => true

/-- Whether a scripted attempt outcome is an RPC-level error. -/
def isRpcErrEv : NetEvent → Bool
  | NetEvent.err _ => true
  | _ => false

/-- The `TokenSnapshot.__init__` configuration (lines 29-65), with the three
endpoint URLs abstracted to identifiers `0, 1, 2`. -/
def initState : TokenSnapshot where
  rpcEndpoints := [0, 1, 2]
  currentRpcIndex := 0
  rpcUrl := 0
  requestDelay := 5
  maxRetries := 3
  retryDelay := 10
  jitterRange := 2
  errorThreshold := 5
  circuitCooldown := 60
  errorWindow := 30
  errorTimestamps := []
  circuitBroken := false
  circuitBreakTime := none
  endpointErrors := fun _ => 0
  endpointCooldown := 300
  endpointLastError := fun _ => none
  requestCount := 0
  lastRequestTime := none
  errorCount := 0

/-- The fixed progress thresholds of `monitor_market_cap` (line 538). -/
def progressThresholds : List ℚ := [85, 90, 95, 97, 99]

/-- The `for threshold in thresholds: if progress >= threshold:
current_threshold = threshold; continue; break` loop of `monitor_market_cap`
(lines 554-559), with `acc` playing the Python local
`current_threshold`. -/
def currentThresholdLoop (progress : ℚ) : List ℚ → Option ℚ → Option ℚ
  | [], acc => acc
  | t :: ts, acc =>
    if t ≤ progress then currentThresholdLoop progress ts (some t) else acc

/-- Spec-side definition ("the highest entry of the ascending list that is
<= progress"), to be compared with `currentThresholdLoop`. -/
def highestLE (l : List ℚ) (p : ℚ) : Option ℚ :=
  (l.filter (fun t => decide (t ≤ p))).max?

/-- Model of `determine_snapshot_interval` (lines 419-432). -/
def determine_snapshot_interval (progress : ℚ) : Option ℕ :=
  if 99 ≤ progress then some 300
  else if 97 ≤ progress then some 1800
  else if 95 ≤ progress then some 3600
  else if 90 ≤ progress then some 14400
  else if 85 ≤ progress then some 86400
  else none

/-- The local variables of the `monitor_market_cap` loop (lines 533-539).
`progressVar` models the Python local `progress`, which is unbound (`none`)
until the first successful progress check and keeps its last value across
iterations; `snapIdx` indexes the stream of `take_snapshot` results. -/
structure SchedState where
  lastSnapshotTime : ℚ
  nextSnapshotTime : Option ℚ
  lastCheckTime : ℚ
  lastThreshold : Option ℚ
  progressVar : Option ℚ
  lastProgress : Option ℚ
  snapIdx : ℕ

/-- One 30-second loop tick: the wall-clock time at the top of the iteration
and, when the check fires, the value returned by `quick_market_cap_check`
(`some (sol_volume, progress)` or `none`). -/
structure TickInput where
  now : ℚ
  progressInfo : Option (ℚ × ℚ)

/-- Which call site of `take_snapshot` produced a snapshot. -/
inductive SnapKind where
  | initial
  | threshold
  | scheduled
  | final
deriving DecidableEq

/-- One `take_snapshot()` call: consumes the next scripted success flag. -/
def takeSnap (snapOk : ℕ → Bool) (st : SchedState) : Bool × SchedState :=
  (snapOk st.snapIdx, { st with snapIdx := st.snapIdx + 1 })

/-- The body of a due progress check in `monitor_market_cap` (lines 547-601):
threshold-crossing snapshot, regular-interval scheduling, and the
target-reached test.  The `Bool` result is `true` when the loop `break`s.
When `progressInfo` is `none` and `progressVar` is still unbound, line 594
raises `NameError`, which the surrounding `except` catches: the iteration
ends with no further state change. -/
def monitorCheck (snapOk : ℕ → Bool) (st0 : SchedState) (tk : TickInput) :
    SchedState × List SnapKind × Bool :=
  let st := { st0 with lastCheckTime := tk.now }
  let afterProg : SchedState × List SnapKind :=
    match tk.progressInfo with
    | some pr =>
      let progress := pr.2
      let stp := { st with progressVar := some progress }
      let cur := currentThresholdLoop progress progressThresholds none
      let r1 : SchedState × List SnapKind :=
        if (stp.lastThreshold ≠ none ∧ cur ≠ stp.lastThreshold) ∨
            (stp.lastThreshold = none ∧ cur ≠ none) then
          let ts := takeSnap snapOk stp
          (if ts.1 then { ts.2 with lastSnapshotTime := tk.now, lastThreshold := cur }
            else ts.2, [SnapKind.threshold])
        else (stp, [])
      match determine_snapshot_interval progress with
      | some interval =>
        let stA := r1.1
        let due1 : Bool :=
          match stA.nextSnapshotTime with
          | none => true
          | some nst => decide (nst ≤ tk.now)
        let stB := if due1 then { stA with nextSnapshotTime := some (tk.now + interval) }
                   else stA
        let due2 : Bool :=
          match stB.nextSnapshotTime with
          | none => false
          | some nst => decide (nst ≤ tk.now)
        if due2 then
          let ts := takeSnap snapOk stB
          (if ts.1 then
              { ts.2 with lastSnapshotTime := tk.now, nextSnapshotTime := some (tk.now + interval) }
            else ts.2, r1.2 ++ [SnapKind.scheduled])
        else (stB, r1.2)
      | none => (r1.1, r1.2)
    | none => (st, [])
  let stF := afterProg.1
  match stF.progressVar with
  | none => (stF, afterProg.2, false)
  | some p =>
    if 100 ≤ p then
      let ts := takeSnap snapOk stF
      (ts.2, afterProg.2 ++ [SnapKind.final], true)
    else
      ({ stF with lastProgress := some p }, afterProg.2, false)

/-- The `while True` loop of `monitor_market_cap` (lines 541-609) over a
finite list of ticks; the check fires when at least `check_interval = 300`
seconds have passed since `lastCheckTime`.  Returns the final state and the
snapshots taken, ending early on `break`. -/
def monitorLoop (snapOk : ℕ → Bool) : SchedState → List TickInput → SchedState × List SnapKind
  | st, [] => (st, [])
  | st, tk :: rest =>
    if 300 ≤ tk.now - st.lastCheckTime then
      let c := monitorCheck snapOk st tk
      if c.2.2 then (c.1, c.2.1)
      else
        let r := monitorLoop snapOk c.1 rest
        (r.1, c.2.1 ++ r.2)
    else monitorLoop snapOk st rest

/-- Model of `monitor_market_cap` (lines 524-609): unconditional initial snapshot at
start time `t0`, then the monitoring loop. -/
def monitor_market_cap (snapOk : ℕ → Bool) (t0 : ℚ) (ticks : List TickInput) :
    SchedState × List SnapKind :=
  let st0 : SchedState :=
    { lastSnapshotTime := t0, nextSnapshotTime := none, lastCheckTime := t0,
      lastThreshold := none, progressVar := none, lastProgress := none, snapIdx := 1 }
  let r := monitorLoop snapOk st0 ticks
  (r.1, SnapKind.initial :: r.2)

/-- Jitter stream that always returns zero (a legal draw from
`uniform(0, jitter_range)`). -/
def zeroJitter : ℕ → ℚ := fun _ => 0

/-- Execution context at process start: fresh configuration, clock at 0. -/
def initExec : Exec := ⟨initState, 0, 0⟩

/-- Snapshot-result stream in which every `take_snapshot` call succeeds. -/
def allSnapsOk : ℕ → Bool := fun _ => true

section CircuitBreakerClaims

/-- C2: starting from `Closed`, `check_circuit_breaker` opens the circuit
exactly when the number of recorded error timestamps strictly younger than
`error_window` seconds is at least `error_threshold` (and reports the same
verdict it stores); an event recorded at time `tEv` is no longer counted by
a check at any time from `tEv + error_window` on. -/
theorem circuit_opens_iff_window_count (s : TokenSnapshot) (t : ℚ)
    (hclosed : s.circuitBroken = false) :
    ((check_circuit_breaker s t).1.circuitBroken = true ↔
      s.errorThreshold ≤
        (s.errorTimestamps.filter (fun ts => decide (t - ts < s.errorWindow))).length) ∧
    (check_circuit_breaker s t).2 = (check_circuit_breaker s t).1.circuitBroken ∧
    (∀ tEv, tEv + s.errorWindow ≤ t →
      tEv ∉ (check_circuit_breaker s t).1.errorTimestamps) := by
  unfold check_circuit_breaker breakerEngage
  simp only [hclosed, Bool.false_eq_true, if_false]
  constructor
  · split_ifs with h
    · simpa using h
    · simpa using h
  · constructor
    · split_ifs <;> rfl
    · intro tEv hage
      split_ifs <;>
      · simp only [List.mem_filter, decide_eq_true_eq]
        rintro ⟨-, hlt⟩
        linarith

/-- Witness for C2: five failures at time `0`, checked at time `1`, open the
circuit (threshold 5 within a 30-second window). -/
theorem circuit_opens_iff_window_count_witness :
    (check_circuit_breaker { initState with errorTimestamps := [0, 0, 0, 0, 0] } 1).1.circuitBroken
      = true := by
  have h := (circuit_opens_iff_window_count
    { initState with errorTimestamps := [0, 0, 0, 0, 0] } 1 rfl).1
  refine h.mpr ?_
  norm_num [initState, List.filter]

end CircuitBreakerClaims

section IntervalClaims

/-- C9: `determine_snapshot_interval` is a monotone step function: for
progress values `85 ≤ p1 ≤ p2` both get an interval and the interval at `p2`
is at most the one at `p1`; strictly below 85 no interval is returned. -/
theorem snapshot_interval_monotone_step :
    (∀ p1 p2 : ℚ, 85 ≤ p1 → p1 ≤ p2 →
      ∃ i1 i2 : ℕ, determine_snapshot_interval p1 = some i1 ∧
        determine_snapshot_interval p2 = some i2 ∧ i2 ≤ i1) ∧
    (∀ p : ℚ, p < 85 → determine_snapshot_interval p = none) := by
  constructor
  · intro p1 p2 h85 hle
    unfold determine_snapshot_interval
    split_ifs <;> first
      | (refine ⟨_, _, rfl, rfl, ?_⟩; decide)
      | (exfalso; linarith)
  · intro p hp
    unfold determine_snapshot_interval
    split_ifs <;> first | rfl | linarith

/-- Witness for C9 at `p1 = 90`, `p2 = 99`: both scheduled, and the interval
shrinks with progress. -/
theorem snapshot_interval_monotone_step_witness :
    ∃ i1 i2 : ℕ, determine_snapshot_interval 90 = some i1 ∧
      determine_snapshot_interval 99 = some i2 ∧ i2 ≤ i1 :=
  snapshot_interval_monotone_step.1 90 99 (by norm_num) (by norm_num)

end IntervalClaims

section RotationClaims

/-- Changing only the current index leaves the cooldown verdicts
untouched. -/
theorem endpointAvailable_set_index (s : TokenSnapshot) (t : ℚ) (i : ℕ) :
    endpointAvailable { s with currentRpcIndex := i } t = endpointAvailable s t := rfl

/-- Core characterisation of the rotation loop with `n` iterations of fuel:
its verdict follows `find?` over the round-robin candidate order, and it
inspects at most `n` candidates. -/
theorem rotateLoop_spec (t : ℚ) :
    ∀ (n : ℕ) (s : TokenSnapshot),
      ((rotationOrderFrom s n).find? (fun ep => endpointAvailable s t ep) = none →
        (rotateLoop t s n).2.1 = false) ∧
      (∀ ep, (rotationOrderFrom s n).find? (fun ep => endpointAvailable s t ep) = some ep →
        (rotateLoop t s n).2.1 = true ∧ (rotateLoop t s n).1.rpcUrl = ep) ∧
      (rotateLoop t s n).2.2 ≤ n := by
  intro n
  induction n with
  | zero => intro s; simp [rotationOrderFrom, rotateLoop]
  | succ n ih =>
    intro s
    set idx := (s.currentRpcIndex + 1) % s.rpcEndpoints.length with hidx
    set s1 : TokenSnapshot := { s with currentRpcIndex := idx } with hs1
    set ep0 := s1.rpcEndpoints.getD idx 0 with hep0
    have hro : rotationOrderFrom s (n + 1) = ep0 :: rotationOrderFrom s1 n := rfl
    have hav : endpointAvailable s1 t = endpointAvailable s t :=
      endpointAvailable_set_index s t idx
    cases hcase : endpointAvailable s t ep0 with
    | true =>
      have hloop : rotateLoop t s (n + 1) = ({ s1 with rpcUrl := ep0 }, true, 1) := by
        rw [rotateLoop]
        simp only [← hidx, ← hs1, ← hep0, hav, hcase, if_true]
      refine ⟨?_, ?_, ?_⟩
      · intro hnone
        rw [hro, List.find?_cons, hcase] at hnone
        exact absurd hnone (by simp)
      · intro ep hsome
        rw [hro, List.find?_cons, hcase] at hsome
        have : ep0 = ep := by simpa using hsome
        subst this
        rw [hloop]
        exact ⟨rfl, rfl⟩
      · rw [hloop]
        show 1 ≤ n + 1
        omega
    | false =>
      have hloop : rotateLoop t s (n + 1)
          = ((rotateLoop t s1 n).1, (rotateLoop t s1 n).2.1, (rotateLoop t s1 n).2.2 + 1) := by
        rw [rotateLoop]
        simp only [← hidx, ← hs1, ← hep0, hav, hcase, Bool.false_eq_true, if_false]
      have hfind : (rotationOrderFrom s (n + 1)).find? (fun ep => endpointAvailable s t ep)
          = (rotationOrderFrom s1 n).find? (fun ep => endpointAvailable s1 t ep) := by
        rw [hro, List.find?_cons, hcase, hav]
      obtain ⟨ih1, ih2, ih3⟩ := ih s1
      refine ⟨?_, ?_, ?_⟩
      · intro hnone
        rw [hloop]
        exact ih1 (by rw [← hfind]; exact hnone)
      · intro ep hsome
        rw [hloop]
        exact ih2 ep (by rw [← hfind]; exact hsome)
      · rw [hloop]
        show (rotateLoop t s1 n).2.2 + 1 ≤ n + 1
        omega

/-- Every candidate in the rotation order is one of the configured
endpoints (when the endpoint list is nonempty). -/
theorem rotationOrderFrom_mem :
    ∀ (n : ℕ) (s : TokenSnapshot), 0 < s.rpcEndpoints.length →
      ∀ ep ∈ rotationOrderFrom s n, ep ∈ s.rpcEndpoints := by
  intro n
  induction n with
  | zero => intro s _ ep h; simp [rotationOrderFrom] at h
  | succ n ih =>
    intro s hlen ep hmem
    rw [rotationOrderFrom] at hmem
    rcases List.mem_cons.1 hmem with h | h
    · subst h
      have hlt : (s.currentRpcIndex + 1) % s.rpcEndpoints.length < s.rpcEndpoints.length :=
        Nat.mod_lt _ hlen
      rw [List.getD_eq_getElem _ _ hlt]
      exact List.getElem_mem _
    · exact ih { s with currentRpcIndex := (s.currentRpcIndex + 1) % s.rpcEndpoints.length }
        hlen ep h

/-- C8: `rotate_rpc_endpoint` inspects at most `len(rpc_endpoints)`
candidates; when every endpoint is cooling down it returns `False`; and its
verdict and selected endpoint follow the first non-cooling endpoint in
round-robin order. -/
theorem rotate_rpc_endpoint_round_robin (s : TokenSnapshot) (t : ℚ) :
    rotateInspections s t ≤ s.rpcEndpoints.length ∧
    ((∀ ep ∈ s.rpcEndpoints, endpointAvailable s t ep = false) →
      (rotate_rpc_endpoint s t).2 = false) ∧
    (∀ ep, (rotationOrder s).find? (fun x => endpointAvailable s t x) = some ep →
      (rotate_rpc_endpoint s t).2 = true ∧ (rotate_rpc_endpoint s t).1.rpcUrl = ep) ∧
    ((rotationOrder s).find? (fun x => endpointAvailable s t x) = none →
      (rotate_rpc_endpoint s t).2 = false) := by
  obtain ⟨h1, h2, h3⟩ := rotateLoop_spec t s.rpcEndpoints.length s
  refine ⟨h3, ?_, ?_, ?_⟩
  · intro hall
    rcases Nat.eq_zero_or_pos s.rpcEndpoints.length with hlen | hlen
    · show (rotateLoop t s s.rpcEndpoints.length).2.1 = false
      rw [hlen, rotateLoop]
    · apply h1
      rw [List.find?_eq_none]
      intro ep hep
      have := rotationOrderFrom_mem s.rpcEndpoints.length s hlen ep hep
      simp [hall ep this]
  · exact h2
  · exact h1

/-- Witness for C8 on a state in which every endpoint last failed at time 0
and is checked at time 10 (inside the 300-second cooldown): rotation fails
after inspecting at most three candidates. -/
theorem rotate_rpc_endpoint_round_robin_witness :
    (rotate_rpc_endpoint { initState with endpointLastError := fun _ => some 0 } 10).2
        = false ∧
      rotateInspections { initState with endpointLastError := fun _ => some 0 } 10 ≤ 3 := by
  have h := rotate_rpc_endpoint_round_robin
    { initState with endpointLastError := fun _ => some 0 } 10
  refine ⟨h.2.1 ?_, h.1⟩
  intro ep _
  norm_num [endpointAvailable, initState]

/-- On failure, the rotation loop leaves `rpcUrl` untouched and advances the
index once per fuel unit, modulo the endpoint count. -/
theorem rotateLoop_fail_frame (t : ℚ) :
    ∀ (n : ℕ) (s : TokenSnapshot), (rotateLoop t s n).2.1 = false →
      (rotateLoop t s n).1.rpcUrl = s.rpcUrl ∧
      (rotateLoop t s n).1.rpcEndpoints = s.rpcEndpoints ∧
      (n = 0 → (rotateLoop t s n).1.currentRpcIndex = s.currentRpcIndex) ∧
      (0 < n → (rotateLoop t s n).1.currentRpcIndex
        = (s.currentRpcIndex + n) % s.rpcEndpoints.length) := by
  intro n
  induction n with
  | zero => intro s _; rw [rotateLoop]; exact ⟨rfl, rfl, fun _ => rfl, fun h => absurd h (by omega)⟩
  | succ n ih =>
    intro s hfail
    set idx := (s.currentRpcIndex + 1) % s.rpcEndpoints.length with hidx
    set s1 : TokenSnapshot := { s with currentRpcIndex := idx } with hs1
    set ep0 := s1.rpcEndpoints.getD idx 0 with hep0
    have hav : endpointAvailable s1 t = endpointAvailable s t :=
      endpointAvailable_set_index s t idx
    cases hcase : endpointAvailable s t ep0 with
    | true =>
      exfalso
      rw [rotateLoop] at hfail
      simp only [← hidx, ← hs1, ← hep0, hav, hcase, if_true] at hfail
      exact absurd hfail (by simp)
    | false =>
      have hloop : rotateLoop t s (n + 1)
          = ((rotateLoop t s1 n).1, (rotateLoop t s1 n).2.1, (rotateLoop t s1 n).2.2 + 1) := by
        rw [rotateLoop]
        simp only [← hidx, ← hs1, ← hep0, hav, hcase, Bool.false_eq_true, if_false]
      rw [hloop] at hfail ⊢
      obtain ⟨ihu, ihe, ih0, ihp⟩ := ih s1 hfail
      refine ⟨ihu, ihe, fun h => absurd h (by omega), fun _ => ?_⟩
      rcases Nat.eq_zero_or_pos n with hn | hn
      · subst hn
        rw [ih0 rfl]
      · rw [ihp hn]
        show (idx + n) % s1.rpcEndpoints.length = _
        have hlen : s1.rpcEndpoints.length = s.rpcEndpoints.length := rfl
        rw [hlen, hidx, Nat.mod_add_mod]
        congr 1
        omega

/-- C10: when `rotate_rpc_endpoint` returns `False` (all endpoints cooling
down), the selection state is unchanged: the index has wrapped one full
cycle back to its starting value and `rpc_url` is not reassigned.  The index
hypothesis holds in every reachable state (the index is `0` at startup and
always reduced modulo the endpoint count afterwards). -/
theorem rotate_failure_preserves_selection (s : TokenSnapshot) (t : ℚ)
    (hidx : s.currentRpcIndex < s.rpcEndpoints.length ∨ s.rpcEndpoints.length = 0)
    (hfail : (rotate_rpc_endpoint s t).2 = false) :
    (rotate_rpc_endpoint s t).1.currentRpcIndex = s.currentRpcIndex ∧
    (rotate_rpc_endpoint s t).1.rpcUrl = s.rpcUrl := by
  have hfail' : (rotateLoop t s s.rpcEndpoints.length).2.1 = false := hfail
  obtain ⟨hu, he, h0, hp⟩ := rotateLoop_fail_frame t s.rpcEndpoints.length s hfail'
  rcases Nat.eq_zero_or_pos s.rpcEndpoints.length with hlen | hlen
  · exact ⟨by rw [show (rotate_rpc_endpoint s t).1 = (rotateLoop t s s.rpcEndpoints.length).1
        from rfl, h0 hlen], hu⟩
  · refine ⟨?_, hu⟩
    show (rotateLoop t s s.rpcEndpoints.length).1.currentRpcIndex = s.currentRpcIndex
    rw [hp hlen, Nat.add_mod_right]
    rcases hidx with h | h
    · exact Nat.mod_eq_of_lt h
    · omega

/-- Witness for C10: with every endpoint cooling down at check time 10,
rotation fails and both the index and the URL are unchanged. -/
theorem rotate_failure_preserves_selection_witness :
    (rotate_rpc_endpoint { initState with endpointLastError := fun _ => some 0 } 10).1.currentRpcIndex
        = 0 ∧
      (rotate_rpc_endpoint { initState with endpointLastError := fun _ => some 0 } 10).1.rpcUrl
        = 0 := by
  have h := rotate_failure_preserves_selection
    { initState with endpointLastError := fun _ => some 0 } 10
    (Or.inl (by norm_num [initState]))
    (by norm_num [rotate_rpc_endpoint, rotateLoop, endpointAvailable, initState, reduceIte])
  exact h

end RotationClaims

section FrameLemmas

/-- The breaker check only touches the breaker bookkeeping: every
other field of the state is preserved. -/
theorem check_circuit_breaker_frame (s : TokenSnapshot) (t : ℚ) :
    (check_circuit_breaker s t).1.rpcEndpoints = s.rpcEndpoints ∧
    (check_circuit_breaker s t).1.currentRpcIndex = s.currentRpcIndex ∧
    (check_circuit_breaker s t).1.rpcUrl = s.rpcUrl ∧
    (check_circuit_breaker s t).1.requestDelay = s.requestDelay ∧
    (check_circuit_breaker s t).1.maxRetries = s.maxRetries ∧
    (check_circuit_breaker s t).1.retryDelay = s.retryDelay ∧
    (check_circuit_breaker s t).1.jitterRange = s.jitterRange ∧
    (check_circuit_breaker s t).1.endpointErrors = s.endpointErrors ∧
    (check_circuit_breaker s t).1.endpointCooldown = s.endpointCooldown ∧
    (check_circuit_breaker s t).1.endpointLastError = s.endpointLastError ∧
    (check_circuit_breaker s t).1.lastRequestTime = s.lastRequestTime ∧
    (check_circuit_breaker s t).1.errorCount = s.errorCount ∧
    (check_circuit_breaker s t).1.requestCount = s.requestCount := by
  unfold check_circuit_breaker breakerEngage
  dsimp only
  split_ifs <;> exact ⟨rfl, rfl, rfl, rfl, rfl, rfl, rfl, rfl, rfl, rfl, rfl, rfl, rfl⟩

/-- The rotation loop only touches `currentRpcIndex` and `rpcUrl`. -/
theorem rotateLoop_frame (t : ℚ) :
    ∀ (n : ℕ) (s : TokenSnapshot),
      (rotateLoop t s n).1.rpcEndpoints = s.rpcEndpoints ∧
      (rotateLoop t s n).1.requestDelay = s.requestDelay ∧
      (rotateLoop t s n).1.maxRetries = s.maxRetries ∧
      (rotateLoop t s n).1.retryDelay = s.retryDelay ∧
      (rotateLoop t s n).1.jitterRange = s.jitterRange ∧
      (rotateLoop t s n).1.endpointErrors = s.endpointErrors ∧
      (rotateLoop t s n).1.endpointCooldown = s.endpointCooldown ∧
      (rotateLoop t s n).1.endpointLastError = s.endpointLastError ∧
      (rotateLoop t s n).1.lastRequestTime = s.lastRequestTime ∧
      (rotateLoop t s n).1.errorCount = s.errorCount ∧
      (rotateLoop t s n).1.errorTimestamps = s.errorTimestamps ∧
      (rotateLoop t s n).1.circuitBroken = s.circuitBroken ∧
      (rotateLoop t s n).1.circuitBreakTime = s.circuitBreakTime ∧
      (rotateLoop t s n).1.requestCount = s.requestCount := by
  intro n
  induction n with
  | zero =>
    intro s
    rw [rotateLoop]
    exact ⟨rfl, rfl, rfl, rfl, rfl, rfl, rfl, rfl, rfl, rfl, rfl, rfl, rfl, rfl⟩
  | succ n ih =>
    intro s
    rw [rotateLoop]
    split_ifs
    · exact ⟨rfl, rfl, rfl, rfl, rfl, rfl, rfl, rfl, rfl, rfl, rfl, rfl, rfl, rfl⟩
    · exact ih { s with currentRpcIndex := (s.currentRpcIndex + 1) % s.rpcEndpoints.length }

/-- A successful rotation selects a configured endpoint; a failed one leaves
`rpcUrl` alone.  Requires fuel at most the endpoint count. -/
theorem rotateLoop_url_mem (t : ℚ) :
    ∀ (n : ℕ) (s : TokenSnapshot), n ≤ s.rpcEndpoints.length →
      (rotateLoop t s n).1.rpcUrl ∈ s.rpcEndpoints ∨ (rotateLoop t s n).1.rpcUrl = s.rpcUrl := by
  intro n
  induction n with
  | zero => intro s _; rw [rotateLoop]; exact Or.inr rfl
  | succ n ih =>
    intro s hn
    have hlen : 0 < s.rpcEndpoints.length := by omega
    rw [rotateLoop]
    split_ifs
    · left
      show s.rpcEndpoints.getD ((s.currentRpcIndex + 1) % s.rpcEndpoints.length) 0
          ∈ s.rpcEndpoints
      have hlt : (s.currentRpcIndex + 1) % s.rpcEndpoints.length < s.rpcEndpoints.length :=
        Nat.mod_lt _ hlen
      rw [List.getD_eq_getElem _ _ hlt]
      exact List.getElem_mem _
    · exact ih { s with currentRpcIndex := (s.currentRpcIndex + 1) % s.rpcEndpoints.length }
        (show n ≤ s.rpcEndpoints.length by omega)

/-- Rotation either selects a configured endpoint or leaves the
URL unchanged. -/
theorem rotate_url_mem (s : TokenSnapshot) (t : ℚ) :
    (rotate_rpc_endpoint s t).1.rpcUrl ∈ s.rpcEndpoints ∨
      (rotate_rpc_endpoint s t).1.rpcUrl = s.rpcUrl :=
  rotateLoop_url_mem t s.rpcEndpoints.length s le_rfl

/-- Updating one point of an endpoint-error table does not change its values
on a list avoiding that point. -/
theorem map_update_not_mem (f : ℕ → ℕ) (u v : ℕ) :
    ∀ (l : List ℕ), u ∉ l → l.map (Function.update f u v) = l.map f := by
  intro l
  induction l with
  | nil => intro _; rfl
  | cons a l ih =>
    intro hu
    have ha : a ≠ u := fun h => hu (h ▸ List.mem_cons_self a l)
    simp only [List.map_cons, Function.update_noteq ha, ih (fun h => hu (List.mem_cons_of_mem a h))]

/-- Incrementing the error table at a configured endpoint raises the summed
error total by exactly one. -/
theorem sum_map_update_succ (f : ℕ → ℕ) (u : ℕ) :
    ∀ (l : List ℕ), u ∈ l → l.Nodup →
      (l.map (Function.update f u (f u + 1))).sum = (l.map f).sum + 1 := by
  intro l
  induction l with
  | nil => intro h; exact absurd h (List.not_mem_nil u)
  | cons a l ih =>
    intro hmem hnd
    have hnd' := List.nodup_cons.1 hnd
    rcases List.mem_cons.1 hmem with rfl | h
    · simp only [List.map_cons, Function.update_same, List.sum_cons,
        map_update_not_mem f u (f u + 1) l hnd'.1]
      omega
    · have ha : a ≠ u := fun hau => hnd'.1 (by rw [hau]; exact h)
      simp only [List.map_cons, Function.update_noteq ha, List.sum_cons, ih h hnd'.2]
      omega

/-- Effect of `recordRpcError` on the fields the claims observe. -/
theorem recordRpcError_fields (s : TokenSnapshot) (tE : ℚ) :
    (recordRpcError s tE).rpcEndpoints = s.rpcEndpoints ∧
    (recordRpcError s tE).rpcUrl = s.rpcUrl ∧
    (recordRpcError s tE).currentRpcIndex = s.currentRpcIndex ∧
    (recordRpcError s tE).requestDelay = s.requestDelay ∧
    (recordRpcError s tE).maxRetries = s.maxRetries ∧
    (recordRpcError s tE).retryDelay = s.retryDelay ∧
    (recordRpcError s tE).jitterRange = s.jitterRange ∧
    (recordRpcError s tE).errorCount = s.errorCount + 1 ∧
    (recordRpcError s tE).errorTimestamps = s.errorTimestamps ++ [tE] ∧
    (recordRpcError s tE).endpointErrors s.rpcUrl = s.endpointErrors s.rpcUrl + 1 ∧
    (recordRpcError s tE).endpointLastError s.rpcUrl = some tE := by
  refine ⟨rfl, rfl, rfl, rfl, rfl, rfl, rfl, rfl, rfl, ?_, ?_⟩ <;>
    simp [recordRpcError, Function.update_same]

/-- Recording an RPC error raises the summed endpoint-error total by one when the
current URL is one of the configured endpoints. -/
theorem epErrTotal_recordRpcError (s : TokenSnapshot) (tE : ℚ)
    (hmem : s.rpcUrl ∈ s.rpcEndpoints) (hnd : s.rpcEndpoints.Nodup) :
    epErrTotal (recordRpcError s tE) = epErrTotal s + 1 := by
  unfold epErrTotal recordRpcError
  exact sum_map_update_succ s.endpointErrors s.rpcUrl s.rpcEndpoints hmem hnd

/-- The attempt list distributes over trace concatenation. -/
theorem attemptsOf_append : ∀ (a b : List TraceEv),
    attemptsOf (a ++ b) = attemptsOf a ++ attemptsOf b := by
  intro a b
  induction a with
  | nil => rfl
  | cons x a ih =>
    cases x <;> simp [attemptsOf, ih]

/-- The breaker phase: state fields other than the breaker bookkeeping and
the endpoint selection are preserved, the jitter index is untouched, the
selected URL stays a configured endpoint or is unchanged, and the emitted
trace contains no attempt and no sleep. -/
theorem breakerPhase_st (e : Exec) :
    (breakerPhase e).1.st.rpcEndpoints = e.st.rpcEndpoints ∧
    (breakerPhase e).1.st.requestDelay = e.st.requestDelay ∧
    (breakerPhase e).1.st.maxRetries = e.st.maxRetries ∧
    (breakerPhase e).1.st.retryDelay = e.st.retryDelay ∧
    (breakerPhase e).1.st.jitterRange = e.st.jitterRange ∧
    (breakerPhase e).1.st.endpointErrors = e.st.endpointErrors ∧
    (breakerPhase e).1.st.endpointCooldown = e.st.endpointCooldown ∧
    (breakerPhase e).1.st.endpointLastError = e.st.endpointLastError ∧
    (breakerPhase e).1.st.lastRequestTime = e.st.lastRequestTime ∧
    (breakerPhase e).1.st.errorCount = e.st.errorCount ∧
    (breakerPhase e).1.ji = e.ji ∧
    ((breakerPhase e).1.st.rpcUrl ∈ e.st.rpcEndpoints ∨
      (breakerPhase e).1.st.rpcUrl = e.st.rpcUrl) ∧
    ((breakerPhase e).2 = [] ∨ ∃ b, (breakerPhase e).2 = [TraceEv.rotated b]) := by
  obtain ⟨c1, c2, c3, c4, c5, c6, c7, c8, c9, c10, c11, c12, c13⟩ :=
    check_circuit_breaker_frame e.st e.now
  unfold breakerPhase
  by_cases hb : (check_circuit_breaker e.st e.now).2 = true
  · simp only [hb, if_true]
    set cb1 := (check_circuit_breaker e.st e.now).1
    set t1 := e.now + (cb1.circuitBreakTime.getD e.now + cb1.circuitCooldown - e.now)
    obtain ⟨r1, r2, r3, r4, r5, r6, r7, r8, r9, r10, r11, r12, r13, r14⟩ :=
      rotateLoop_frame t1 cb1.rpcEndpoints.length cb1
    refine ⟨?_, ?_, ?_, ?_, ?_, ?_, ?_, ?_, ?_, ?_, ?_, ?_, Or.inr ⟨_, rfl⟩⟩
    · exact r1.trans c1
    · exact r2.trans c4
    · exact r3.trans c5
    · exact r4.trans c6
    · exact r5.trans c7
    · exact r6.trans c8
    · exact r7.trans c9
    · exact r8.trans c10
    · exact r9.trans c11
    · exact r10.trans c12
    · trivial
    · rcases rotate_url_mem cb1 t1 with h | h
      · left; exact c1 ▸ h
      · right; exact h.trans c3
  · simp only [hb, if_false]
    exact ⟨c1, c4, c5, c6, c7, c8, c9, c10, c11, c12, rfl, Or.inr c3, Or.inl rfl⟩

/-- The prelude of one attempt: every field the later phases read, expressed
in terms of the pre-call state; the emitted trace is an optional rotation
event followed by exactly the per-attempt sleep. -/
theorem rpcPrelude_st (j : ℕ → ℚ) (e : Exec) (rc : ℕ) :
    (rpcPrelude j e rc).1.st.rpcEndpoints = e.st.rpcEndpoints ∧
    (rpcPrelude j e rc).1.st.maxRetries = e.st.maxRetries ∧
    (rpcPrelude j e rc).1.st.retryDelay = e.st.retryDelay ∧
    (rpcPrelude j e rc).1.st.jitterRange = e.st.jitterRange ∧
    (rpcPrelude j e rc).1.st.endpointErrors = e.st.endpointErrors ∧
    (rpcPrelude j e rc).1.st.endpointCooldown = e.st.endpointCooldown ∧
    (rpcPrelude j e rc).1.st.endpointLastError = e.st.endpointLastError ∧
    (rpcPrelude j e rc).1.st.lastRequestTime = e.st.lastRequestTime ∧
    (rpcPrelude j e rc).1.st.errorCount = e.st.errorCount ∧
    (rpcPrelude j e rc).1.st.requestDelay
      = (if 0 < e.st.errorCount then ratMin (e.st.requestDelay * 2) 120
         else e.st.requestDelay) ∧
    (rpcPrelude j e rc).1.ji = e.ji + 1 ∧
    ((rpcPrelude j e rc).1.st.rpcUrl ∈ e.st.rpcEndpoints ∨
      (rpcPrelude j e rc).1.st.rpcUrl = e.st.rpcUrl) ∧
    (rpcPrelude j e rc).2 = (breakerPhase e).2
      ++ [TraceEv.sleep ((rpcPrelude j e rc).1.st.requestDelay * 3 ^ rc + j e.ji)] := by
  obtain ⟨b1, b2, b3, b4, b5, b6, b7, b8, b9, b10, b11, b12, b13⟩ := breakerPhase_st e
  unfold rpcPrelude
  by_cases hc : 0 < (breakerPhase e).1.st.errorCount
  · have hc' : 0 < e.st.errorCount := b10 ▸ hc
    simp only [hc, hc', if_true]
    refine ⟨b1, b3, b4, b5, b6, b7, b8, b9, b10, ?_, ?_, b12, ?_⟩
    · rw [b2]
    · rw [b11]
    · rw [b11]
  · have hc' : ¬ 0 < e.st.errorCount := fun h => hc (b10 ▸ h)
    simp only [hc, hc', if_false]
    refine ⟨b1, b3, b4, b5, b6, b7, b8, b9, b10, b2, ?_, b12, ?_⟩
    · rw [b11]
    · rw [b11]

end FrameLemmas

section GovernorClaims

/-- Definitional unfolding of `make_rpc_request` on an RPC-error attempt. -/
theorem make_rpc_request_err (j : ℕ → ℚ) (e : Exec) (rc : ℕ) (code : ℤ)
    (rest : List NetEvent) :
    make_rpc_request j e rc (NetEvent.err code :: rest) =
      (let e1 := (rpcPrelude j e rc).1
       let st2 := recordRpcError { e1.st with lastRequestTime := some e1.now } e.now
       let tr2 := (rpcPrelude j e rc).2 ++ [TraceEv.attempt rc (NetEvent.err code)]
       if code = -32005 ∨ code = 429 then
         let rot := rotate_rpc_endpoint st2 e1.now
         let tr3 := tr2 ++ [TraceEv.rotated rot.2]
         if rot.2 then
           let r := make_rpc_request j ⟨rot.1, e1.now, e1.ji⟩ rc rest
           (r.1, r.2.1, tr3 ++ r.2.2)
         else if rc < rot.1.maxRetries then
           let waitTime := rot.1.retryDelay * 3 ^ rc + j e1.ji
           let r := make_rpc_request j ⟨rot.1, e1.now + waitTime, e1.ji + 1⟩ (rc + 1) rest
           (r.1, r.2.1, tr3 ++ r.2.2)
         else (⟨rot.1, e1.now, e1.ji⟩, CallOutcome.ret (some (RpcResult.err code)), tr3)
       else (⟨st2, e1.now, e1.ji⟩, CallOutcome.ret (some (RpcResult.err code)), tr2)) := rfl

/-- Definitional unfolding of `make_rpc_request` on a successful attempt. -/
theorem make_rpc_request_ok (j : ℕ → ℚ) (e : Exec) (rc : ℕ) (v : ℕ)
    (rest : List NetEvent) :
    make_rpc_request j e rc (NetEvent.ok v :: rest) =
      (let e1 := (rpcPrelude j e rc).1
       (⟨{ e1.st with lastRequestTime := some e1.now }, e1.now, e1.ji⟩,
         CallOutcome.ret (some (RpcResult.ok v)),
         (rpcPrelude j e rc).2 ++ [TraceEv.attempt rc (NetEvent.ok v)])) := rfl

/-- Definitional unfolding of `make_rpc_request` on a transport-exception
attempt. -/
theorem make_rpc_request_exn (j : ℕ → ℚ) (e : Exec) (rc : ℕ) (rest : List NetEvent) :
    make_rpc_request j e rc (NetEvent.exn :: rest) =
      (let e1 := (rpcPrelude j e rc).1
       let st2 := recordExn e1.st e.now
       let tr2 := (rpcPrelude j e rc).2 ++ [TraceEv.attempt rc NetEvent.exn]
       if rc < st2.maxRetries then
         let waitTime := st2.retryDelay * 3 ^ rc
         let r := make_rpc_request j ⟨st2, e1.now + waitTime, e1.ji⟩ (rc + 1) rest
         (r.1, r.2.1, tr2 ++ r.2.2)
       else (⟨st2, e1.now, e1.ji⟩, CallOutcome.ret none, tr2)) := rfl

/-- The prelude of an attempt performs no HTTP attempt of its own. -/
theorem attemptsOf_rpcPrelude (j : ℕ → ℚ) (e : Exec) (rc : ℕ) :
    attemptsOf (rpcPrelude j e rc).2 = [] := by
  obtain ⟨-, -, -, -, -, -, -, -, -, -, -, -, htr⟩ := rpcPrelude_st j e rc
  obtain ⟨-, -, -, -, -, -, -, -, -, -, -, -, hbp⟩ := breakerPhase_st e
  rw [htr, attemptsOf_append]
  rcases hbp with h | ⟨b, h⟩ <;> rw [h] <;> rfl

/-- When the breaker does not block at entry, the prelude leaves the
endpoint selection untouched. -/
theorem rpcPrelude_url_noblock (j : ℕ → ℚ) (e : Exec) (rc : ℕ)
    (hnb : (check_circuit_breaker e.st e.now).2 = false) :
    (rpcPrelude j e rc).1.st.rpcUrl = e.st.rpcUrl ∧
    (rpcPrelude j e rc).1.st.currentRpcIndex = e.st.currentRpcIndex := by
  obtain ⟨c1, c2, c3, c4, c5, c6, c7, c8, c9, c10, c11, c12, c13⟩ :=
    check_circuit_breaker_frame e.st e.now
  unfold rpcPrelude breakerPhase
  simp only [hnb, Bool.false_eq_true, if_false]
  by_cases hc : 0 < (check_circuit_breaker e.st e.now).1.errorCount <;>
    simp only [hc, if_true, if_false] <;> exact ⟨c3, c2⟩

/-- C6 (amended): on an RPC-level error whose code is not a rate-limit code,
`make_rpc_request` records the failure against the breaker and the current
endpoint, does not rotate, and returns the error envelope immediately (one
single attempt, no retry). -/
theorem non_rate_limit_error_no_retry (j : ℕ → ℚ) (e : Exec) (rc : ℕ) (code : ℤ)
    (rest : List NetEvent) (h1 : code ≠ -32005) (h2 : code ≠ 429) :
    (make_rpc_request j e rc (NetEvent.err code :: rest)).2.1
      = CallOutcome.ret (some (RpcResult.err code)) ∧
    attemptsOf (make_rpc_request j e rc (NetEvent.err code :: rest)).2.2
      = [(rc, NetEvent.err code)] ∧
    (make_rpc_request j e rc (NetEvent.err code :: rest)).1.st.errorCount
      = e.st.errorCount + 1 ∧
    (make_rpc_request j e rc (NetEvent.err code :: rest)).1.st.errorTimestamps
      = (rpcPrelude j e rc).1.st.errorTimestamps ++ [e.now] ∧
    (make_rpc_request j e rc (NetEvent.err code :: rest)).1.st.endpointErrors
        ((rpcPrelude j e rc).1.st.rpcUrl)
      = e.st.endpointErrors ((rpcPrelude j e rc).1.st.rpcUrl) + 1 ∧
    (make_rpc_request j e rc (NetEvent.err code :: rest)).1.st.endpointLastError
        ((rpcPrelude j e rc).1.st.rpcUrl)
      = some e.now ∧
    (make_rpc_request j e rc (NetEvent.err code :: rest)).1.st.rpcUrl
      = (rpcPrelude j e rc).1.st.rpcUrl ∧
    (make_rpc_request j e rc (NetEvent.err code :: rest)).1.st.currentRpcIndex
      = (rpcPrelude j e rc).1.st.currentRpcIndex ∧
    ((check_circuit_breaker e.st e.now).2 = false →
      (make_rpc_request j e rc (NetEvent.err code :: rest)).1.st.rpcUrl = e.st.rpcUrl ∧
      (make_rpc_request j e rc (NetEvent.err code :: rest)).1.st.currentRpcIndex
        = e.st.currentRpcIndex) := by
  have h3 : ¬ (code = -32005 ∨ code = 429) := not_or.mpr ⟨h1, h2⟩
  obtain ⟨p1, p2, p3, p4, p5, p6, p7, p8, p9, p10, p11, p12, p13⟩ := rpcPrelude_st j e rc
  set e1 := (rpcPrelude j e rc).1 with he1
  have hstep : make_rpc_request j e rc (NetEvent.err code :: rest)
      = (⟨recordRpcError { e1.st with lastRequestTime := some e1.now } e.now, e1.now, e1.ji⟩,
          CallOutcome.ret (some (RpcResult.err code)),
          (rpcPrelude j e rc).2 ++ [TraceEv.attempt rc (NetEvent.err code)]) := by
    rw [make_rpc_request_err]
    simp only [if_neg h3]
  rw [hstep]
  set sPre : TokenSnapshot := { e1.st with lastRequestTime := some e1.now } with hsPre
  obtain ⟨f1, f2, f3, f4, f5, f6, f7, f8, f9, f10, f11⟩ := recordRpcError_fields sPre e.now
  have hPreUrl : sPre.rpcUrl = e1.st.rpcUrl := rfl
  have hPreErrs : sPre.endpointErrors = e1.st.endpointErrors := rfl
  have hPreCnt : sPre.errorCount = e1.st.errorCount := rfl
  have hPreTs : sPre.errorTimestamps = e1.st.errorTimestamps := rfl
  have hPreIdx : sPre.currentRpcIndex = e1.st.currentRpcIndex := rfl
  refine ⟨rfl, ?_, ?_, ?_, ?_, ?_, ?_, ?_, ?_⟩
  · show attemptsOf ((rpcPrelude j e rc).2 ++ [TraceEv.attempt rc (NetEvent.err code)])
      = [(rc, NetEvent.err code)]
    rw [attemptsOf_append, attemptsOf_rpcPrelude]
    rfl
  · show (recordRpcError sPre e.now).errorCount = e.st.errorCount + 1
    rw [f8, hPreCnt, p9]
  · show (recordRpcError sPre e.now).errorTimestamps
      = e1.st.errorTimestamps ++ [e.now]
    rw [f9, hPreTs]
  · show (recordRpcError sPre e.now).endpointErrors e1.st.rpcUrl
      = e.st.endpointErrors e1.st.rpcUrl + 1
    rw [← hPreUrl, f10, show sPre.endpointErrors = e.st.endpointErrors from hPreErrs.trans p5]
  · show (recordRpcError sPre e.now).endpointLastError e1.st.rpcUrl = some e.now
    rw [← hPreUrl, f11]
  · show (recordRpcError sPre e.now).rpcUrl = e1.st.rpcUrl
    rw [f2]
  · show (recordRpcError sPre e.now).currentRpcIndex = e1.st.currentRpcIndex
    rw [f3]
  · intro hnb
    obtain ⟨hu, hi⟩ := rpcPrelude_url_noblock j e rc hnb
    constructor
    · show (recordRpcError sPre e.now).rpcUrl = e.st.rpcUrl
      rw [f2, hPreUrl, hu]
    · show (recordRpcError sPre e.now).currentRpcIndex = e.st.currentRpcIndex
      rw [f3, hPreIdx, hi]

end GovernorClaims

section GovernorClaims2

/-- Counterexample to C6 as stated: from the fresh configuration, a
non-rate-limit RPC error (code 7) with a successful response available on
retry is returned immediately as the error envelope after a single attempt —
the code does not retry non-rate-limit errors. -/
theorem non_rate_limit_error_counterexample :
    (make_rpc_request zeroJitter initExec 0 [NetEvent.err 7, NetEvent.ok 1]).2.1
      = CallOutcome.ret (some (RpcResult.err 7)) ∧
    attemptsOf (make_rpc_request zeroJitter initExec 0 [NetEvent.err 7, NetEvent.ok 1]).2.2
      = [(0, NetEvent.err 7)] ∧
    (∀ v, (make_rpc_request zeroJitter initExec 0 [NetEvent.err 7, NetEvent.ok 1]).2.1
      ≠ CallOutcome.ret (some (RpcResult.ok v))) := by
  norm_num [make_rpc_request, rpcPrelude, breakerPhase, check_circuit_breaker, breakerEngage,
    rotate_rpc_endpoint, rotateLoop, endpointAvailable, recordExn, recordRpcError,
    ratMin, initState, initExec, zeroJitter, attemptsOf, Option.some_ne_none, reduceIte]
  exact fun v h => RpcResult.noConfusion h

/-- Witness for the amended C6 at code 5: the call returns the error
envelope. -/
theorem non_rate_limit_error_no_retry_witness :
    (make_rpc_request zeroJitter initExec 0 [NetEvent.err 5, NetEvent.ok 1]).2.1
      = CallOutcome.ret (some (RpcResult.err 5)) :=
  (non_rate_limit_error_no_retry zeroJitter initExec 0 5 [NetEvent.ok 1]
    (by decide) (by decide)).1

/-- C5: on a rate-limited attempt (code `-32005` or `429`), the governor
either rotates and retries at the same `retry_count` (rotation consumes no
retry budget), or, when rotation is unavailable, increments `retry_count`
and retries; when rotation is unavailable and the retry budget is spent it
returns the error envelope, which is distinguishable from any successful
response. -/
theorem rate_limited_rotation_policy (j : ℕ → ℚ) (e : Exec) (rc : ℕ) (code : ℤ)
    (rest : List NetEvent) (hcode : code = -32005 ∨ code = 429) :
    ((rotate_rpc_endpoint
        (recordRpcError { (rpcPrelude j e rc).1.st with
          lastRequestTime := some (rpcPrelude j e rc).1.now } e.now)
        (rpcPrelude j e rc).1.now).2 = true →
      (make_rpc_request j e rc (NetEvent.err code :: rest)).2.1
        = (make_rpc_request j
            ⟨(rotate_rpc_endpoint
                (recordRpcError { (rpcPrelude j e rc).1.st with
                  lastRequestTime := some (rpcPrelude j e rc).1.now } e.now)
                (rpcPrelude j e rc).1.now).1,
              (rpcPrelude j e rc).1.now, (rpcPrelude j e rc).1.ji⟩ rc rest).2.1 ∧
      attemptsOf (make_rpc_request j e rc (NetEvent.err code :: rest)).2.2
        = (rc, NetEvent.err code) ::
            attemptsOf (make_rpc_request j
              ⟨(rotate_rpc_endpoint
                  (recordRpcError { (rpcPrelude j e rc).1.st with
                    lastRequestTime := some (rpcPrelude j e rc).1.now } e.now)
                  (rpcPrelude j e rc).1.now).1,
                (rpcPrelude j e rc).1.now, (rpcPrelude j e rc).1.ji⟩ rc rest).2.2) ∧
    ((rotate_rpc_endpoint
        (recordRpcError { (rpcPrelude j e rc).1.st with
          lastRequestTime := some (rpcPrelude j e rc).1.now } e.now)
        (rpcPrelude j e rc).1.now).2 = false →
      rc < e.st.maxRetries →
      (make_rpc_request j e rc (NetEvent.err code :: rest)).2.1
        = (make_rpc_request j
            ⟨(rotate_rpc_endpoint
                (recordRpcError { (rpcPrelude j e rc).1.st with
                  lastRequestTime := some (rpcPrelude j e rc).1.now } e.now)
                (rpcPrelude j e rc).1.now).1,
              (rpcPrelude j e rc).1.now
                + (e.st.retryDelay * 3 ^ rc + j (rpcPrelude j e rc).1.ji),
              (rpcPrelude j e rc).1.ji + 1⟩ (rc + 1) rest).2.1 ∧
      attemptsOf (make_rpc_request j e rc (NetEvent.err code :: rest)).2.2
        = (rc, NetEvent.err code) ::
            attemptsOf (make_rpc_request j
              ⟨(rotate_rpc_endpoint
                  (recordRpcError { (rpcPrelude j e rc).1.st with
                    lastRequestTime := some (rpcPrelude j e rc).1.now } e.now)
                  (rpcPrelude j e rc).1.now).1,
                (rpcPrelude j e rc).1.now
                  + (e.st.retryDelay * 3 ^ rc + j (rpcPrelude j e rc).1.ji),
                (rpcPrelude j e rc).1.ji + 1⟩ (rc + 1) rest).2.2) ∧
    ((rotate_rpc_endpoint
        (recordRpcError { (rpcPrelude j e rc).1.st with
          lastRequestTime := some (rpcPrelude j e rc).1.now } e.now)
        (rpcPrelude j e rc).1.now).2 = false →
      e.st.maxRetries ≤ rc →
      (make_rpc_request j e rc (NetEvent.err code :: rest)).2.1
        = CallOutcome.ret (some (RpcResult.err code)) ∧
      ∀ v, (make_rpc_request j e rc (NetEvent.err code :: rest)).2.1
        ≠ CallOutcome.ret (some (RpcResult.ok v))) := by
  obtain ⟨p1, p2, p3, p4, p5, p6, p7, p8, p9, p10, p11, p12, p13⟩ := rpcPrelude_st j e rc
  set e1 := (rpcPrelude j e rc).1 with he1
  set st2 : TokenSnapshot :=
    recordRpcError { e1.st with lastRequestTime := some e1.now } e.now with hst2
  set rot := rotate_rpc_endpoint st2 e1.now with hrot
  have hmax : rot.1.maxRetries = e.st.maxRetries := by
    have h := (rotateLoop_frame e1.now st2.rpcEndpoints.length st2).2.2.1
    have h2 : st2.maxRetries = e1.st.maxRetries := rfl
    exact h.trans (h2.trans p2)
  have hrd : rot.1.retryDelay = e.st.retryDelay := by
    have h := (rotateLoop_frame e1.now st2.rpcEndpoints.length st2).2.2.2.1
    have h2 : st2.retryDelay = e1.st.retryDelay := rfl
    exact h.trans (h2.trans p3)
  refine ⟨?_, ?_, ?_⟩
  · intro htrue
    have hstep : make_rpc_request j e rc (NetEvent.err code :: rest)
        = ((make_rpc_request j ⟨rot.1, e1.now, e1.ji⟩ rc rest).1,
            (make_rpc_request j ⟨rot.1, e1.now, e1.ji⟩ rc rest).2.1,
            ((rpcPrelude j e rc).2 ++ [TraceEv.attempt rc (NetEvent.err code)]
              ++ [TraceEv.rotated rot.2])
              ++ (make_rpc_request j ⟨rot.1, e1.now, e1.ji⟩ rc rest).2.2) := by
      rw [make_rpc_request_err]
      simp only [if_pos hcode, ← he1, ← hst2, ← hrot, htrue, if_true]
    rw [hstep]
    refine ⟨rfl, ?_⟩
    rw [attemptsOf_append, attemptsOf_append, attemptsOf_append, attemptsOf_rpcPrelude]
    rfl
  · intro hfalse hlt
    have hlt' : rc < rot.1.maxRetries := hmax ▸ hlt
    have hstep : make_rpc_request j e rc (NetEvent.err code :: rest)
        = ((make_rpc_request j ⟨rot.1, e1.now + (rot.1.retryDelay * 3 ^ rc + j e1.ji),
              e1.ji + 1⟩ (rc + 1) rest).1,
            (make_rpc_request j ⟨rot.1, e1.now + (rot.1.retryDelay * 3 ^ rc + j e1.ji),
              e1.ji + 1⟩ (rc + 1) rest).2.1,
            ((rpcPrelude j e rc).2 ++ [TraceEv.attempt rc (NetEvent.err code)]
              ++ [TraceEv.rotated rot.2])
              ++ (make_rpc_request j ⟨rot.1, e1.now + (rot.1.retryDelay * 3 ^ rc + j e1.ji),
                  e1.ji + 1⟩ (rc + 1) rest).2.2) := by
      rw [make_rpc_request_err]
      simp only [if_pos hcode, ← he1, ← hst2, ← hrot, hfalse, Bool.false_eq_true, if_false,
        hlt', if_true]
    rw [hstep, hrd]
    refine ⟨rfl, ?_⟩
    rw [attemptsOf_append, attemptsOf_append, attemptsOf_append, attemptsOf_rpcPrelude]
    rfl
  · intro hfalse hge
    have hge' : ¬ rc < rot.1.maxRetries := by rw [hmax]; omega
    have hstep : make_rpc_request j e rc (NetEvent.err code :: rest)
        = (⟨rot.1, e1.now, e1.ji⟩, CallOutcome.ret (some (RpcResult.err code)),
            (rpcPrelude j e rc).2 ++ [TraceEv.attempt rc (NetEvent.err code)]
              ++ [TraceEv.rotated rot.2]) := by
      rw [make_rpc_request_err]
      simp only [if_pos hcode, ← he1, ← hst2, ← hrot, hfalse, Bool.false_eq_true, if_false,
        hge', if_true]
    rw [hstep]
    exact ⟨rfl, fun v h => by simp at h⟩

/-- Witness for C5 from the fresh configuration: a 429 on the first attempt
rotates (all other endpoints are fresh) and the retry runs at the same
retry count 0, as the recorded attempt list shows. -/
theorem rate_limited_rotation_policy_witness :
    attemptsOf (make_rpc_request zeroJitter initExec 0 [NetEvent.err 429, NetEvent.ok 2]).2.2
      = [(0, NetEvent.err 429), (0, NetEvent.ok 2)] := by
  have h := (rate_limited_rotation_policy zeroJitter initExec 0 429 [NetEvent.ok 2]
    (Or.inr rfl)).1
  have hr : (rotate_rpc_endpoint
      (recordRpcError { (rpcPrelude zeroJitter initExec 0).1.st with
        lastRequestTime := some (rpcPrelude zeroJitter initExec 0).1.now } initExec.now)
      (rpcPrelude zeroJitter initExec 0).1.now).2 = true := by
    norm_num [rpcPrelude, breakerPhase, check_circuit_breaker, breakerEngage,
      rotate_rpc_endpoint, rotateLoop, endpointAvailable, recordRpcError, ratMin,
      initState, initExec, zeroJitter, Function.update, Option.some_ne_none, reduceIte]
  rw [(h hr).2]
  norm_num [make_rpc_request, rpcPrelude, breakerPhase, check_circuit_breaker, breakerEngage,
    rotate_rpc_endpoint, rotateLoop, endpointAvailable, recordRpcError, ratMin,
    initState, initExec, zeroJitter, attemptsOf, Function.update, Option.some_ne_none,
    reduceIte]

end GovernorClaims2

section RecordingClaims

/-- Definitional unfolding of `make_rpc_request` on an exhausted script. -/
theorem make_rpc_request_nil (j : ℕ → ℚ) (e : Exec) (rc : ℕ) :
    make_rpc_request j e rc [] = (e, CallOutcome.outOfScript, []) := rfl

/-- The summed endpoint-error total only depends on the endpoint list and the error table. -/
theorem epErrTotal_congr {s1 s2 : TokenSnapshot}
    (h1 : s1.rpcEndpoints = s2.rpcEndpoints)
    (h2 : s1.endpointErrors = s2.endpointErrors) :
    epErrTotal s1 = epErrTotal s2 := by
  unfold epErrTotal
  rw [h1, h2]

/-- C7 (amended), conservation form: over any run of `make_rpc_request`, the
global failure counter grows by exactly the number of failed attempts
(RPC errors and transport exceptions), while the summed per-endpoint error
total grows by exactly the number of RPC-error attempts only — transport
exceptions are recorded against the breaker but not against the endpoint.
Endpoint bookkeeping is never touched by rotation or cooldown skips. -/
theorem failure_recording_totals (j : ℕ → ℚ) :
    ∀ (script : List NetEvent) (e : Exec) (rc : ℕ),
      e.st.rpcUrl ∈ e.st.rpcEndpoints → e.st.rpcEndpoints.Nodup →
      (make_rpc_request j e rc script).1.st.rpcEndpoints = e.st.rpcEndpoints ∧
      (make_rpc_request j e rc script).1.st.errorCount
        = e.st.errorCount
          + ((attemptsOf (make_rpc_request j e rc script).2.2).filter
              (fun a => isFailEv a.2)).length ∧
      epErrTotal (make_rpc_request j e rc script).1.st
        = epErrTotal e.st
          + ((attemptsOf (make_rpc_request j e rc script).2.2).filter
              (fun a => isRpcErrEv a.2)).length ∧
      (make_rpc_request j e rc script).1.st.rpcUrl
        ∈ (make_rpc_request j e rc script).1.st.rpcEndpoints := by
  intro script
  induction script with
  | nil =>
    intro e rc hmem hnd
    rw [make_rpc_request_nil]
    exact ⟨rfl, by simp [attemptsOf], by simp [attemptsOf], hmem⟩
  | cons ev rest ih =>
    intro e rc hmem hnd
    obtain ⟨p1, p2, p3, p4, p5, p6, p7, p8, p9, p10, p11, p12, p13⟩ := rpcPrelude_st j e rc
    set e1 := (rpcPrelude j e rc).1 with he1
    have hmem1 : e1.st.rpcUrl ∈ e1.st.rpcEndpoints := by
      rw [p1]
      rcases p12 with h | h
      · exact h
      · rw [h]; exact hmem
    have hnd1 : e1.st.rpcEndpoints.Nodup := p1 ▸ hnd
    have hepe1 : epErrTotal e1.st = epErrTotal e.st := epErrTotal_congr p1 p5
    cases ev with
    | ok v =>
      rw [make_rpc_request_ok]
      simp only [← he1]
      have hattempts :
          attemptsOf ((rpcPrelude j e rc).2 ++ [TraceEv.attempt rc (NetEvent.ok v)])
            = [(rc, NetEvent.ok v)] := by
        rw [attemptsOf_append, attemptsOf_rpcPrelude]; rfl
      refine ⟨p1, ?_, ?_, ?_⟩
      · rw [hattempts]
        show e1.st.errorCount = e.st.errorCount + _
        rw [p9]
        rfl
      · rw [hattempts]
        have h2 : (List.filter (fun a => isRpcErrEv a.2) [(rc, NetEvent.ok v)]).length = 0 := rfl
        rw [h2]
        exact hepe1.trans (Nat.add_zero _).symm
      · exact hmem1
    | err code =>
      set sPre : TokenSnapshot := { e1.st with lastRequestTime := some e1.now } with hsPre
      set st2 : TokenSnapshot := recordRpcError sPre e.now with hst2
      have hmemP : sPre.rpcUrl ∈ sPre.rpcEndpoints := hmem1
      have hndP : sPre.rpcEndpoints.Nodup := hnd1
      have hcnt2 : st2.errorCount = e.st.errorCount + 1 := by
        rw [hst2, (recordRpcError_fields sPre e.now).2.2.2.2.2.2.2.1]
        show e1.st.errorCount + 1 = _
        rw [p9]
      have hepe2 : epErrTotal st2 = epErrTotal e.st + 1 := by
        rw [hst2, epErrTotal_recordRpcError sPre e.now hmemP hndP]
        have : epErrTotal sPre = epErrTotal e.st := hepe1
        rw [this]
      have hend2 : st2.rpcEndpoints = e.st.rpcEndpoints := by
        rw [hst2, (recordRpcError_fields sPre e.now).1]
        exact p1
      have hurl2 : st2.rpcUrl ∈ st2.rpcEndpoints := by
        rw [hst2, (recordRpcError_fields sPre e.now).2.1,
          (recordRpcError_fields sPre e.now).1]
        exact hmemP
      have hnd2 : st2.rpcEndpoints.Nodup := hend2 ▸ hnd
      by_cases hcode : code = -32005 ∨ code = 429
      · set rot := rotate_rpc_endpoint st2 e1.now with hrot
        obtain ⟨r1, r2, r3, r4, r5, r6, r7, r8, r9, r10, r11, r12, r13, r14⟩ :=
          rotateLoop_frame e1.now st2.rpcEndpoints.length st2
        have hendR : rot.1.rpcEndpoints = e.st.rpcEndpoints := r1.trans hend2
        have hcntR : rot.1.errorCount = e.st.errorCount + 1 := r10.trans hcnt2
        have hepeR : epErrTotal rot.1 = epErrTotal e.st + 1 :=
          (epErrTotal_congr r1 r6).trans hepe2
        have hre : rot.1.rpcEndpoints = st2.rpcEndpoints := r1
        have hurlR : rot.1.rpcUrl ∈ rot.1.rpcEndpoints := by
          rw [hre]
          rcases rotate_url_mem st2 e1.now with h | h
          · exact h
          · exact h.symm ▸ hurl2
        have hndR : rot.1.rpcEndpoints.Nodup := hendR ▸ hnd
        cases htrue : rot.2 with
        | true =>
          have hstep : make_rpc_request j e rc (NetEvent.err code :: rest)
              = ((make_rpc_request j ⟨rot.1, e1.now, e1.ji⟩ rc rest).1,
                  (make_rpc_request j ⟨rot.1, e1.now, e1.ji⟩ rc rest).2.1,
                  ((rpcPrelude j e rc).2 ++ [TraceEv.attempt rc (NetEvent.err code)]
                    ++ [TraceEv.rotated rot.2])
                    ++ (make_rpc_request j ⟨rot.1, e1.now, e1.ji⟩ rc rest).2.2) := by
            rw [make_rpc_request_err]
            simp only [if_pos hcode, ← he1, ← hst2, ← hrot, htrue, if_true]
          obtain ⟨q1, q2, q3, q4⟩ := ih ⟨rot.1, e1.now, e1.ji⟩ rc hurlR hndR
          rw [hstep]
          have hatr : attemptsOf (((rpcPrelude j e rc).2
              ++ [TraceEv.attempt rc (NetEvent.err code)] ++ [TraceEv.rotated rot.2])
              ++ (make_rpc_request j ⟨rot.1, e1.now, e1.ji⟩ rc rest).2.2)
              = (rc, NetEvent.err code)
                :: attemptsOf (make_rpc_request j ⟨rot.1, e1.now, e1.ji⟩ rc rest).2.2 := by
            rw [attemptsOf_append, attemptsOf_append, attemptsOf_append,
              attemptsOf_rpcPrelude]
            rfl
          refine ⟨q1.trans hendR, ?_, ?_, q4⟩
          · rw [hatr, q2, hcntR, List.filter_cons]
            simp only [isFailEv, if_true]
            simp [List.length_cons]
            omega
          · rw [hatr, q3, hepeR, List.filter_cons]
            simp only [isRpcErrEv, if_true]
            simp [List.length_cons]
            omega
        | false =>
          by_cases hlt : rc < rot.1.maxRetries
          · set eAdv : Exec := ⟨rot.1, e1.now + (rot.1.retryDelay * 3 ^ rc + j e1.ji),
              e1.ji + 1⟩ with heAdv
            have hstep : make_rpc_request j e rc (NetEvent.err code :: rest)
                = ((make_rpc_request j eAdv (rc + 1) rest).1,
                    (make_rpc_request j eAdv (rc + 1) rest).2.1,
                    ((rpcPrelude j e rc).2 ++ [TraceEv.attempt rc (NetEvent.err code)]
                      ++ [TraceEv.rotated rot.2])
                      ++ (make_rpc_request j eAdv (rc + 1) rest).2.2) := by
              rw [make_rpc_request_err]
              simp only [if_pos hcode, ← he1, ← hst2, ← hrot, htrue, Bool.false_eq_true,
                if_false, hlt, if_true, ← heAdv]
            obtain ⟨q1, q2, q3, q4⟩ := ih eAdv (rc + 1) hurlR hndR
            rw [hstep]
            have hatr : attemptsOf (((rpcPrelude j e rc).2
                ++ [TraceEv.attempt rc (NetEvent.err code)] ++ [TraceEv.rotated rot.2])
                ++ (make_rpc_request j eAdv (rc + 1) rest).2.2)
                = (rc, NetEvent.err code)
                  :: attemptsOf (make_rpc_request j eAdv (rc + 1) rest).2.2 := by
              rw [attemptsOf_append, attemptsOf_append, attemptsOf_append,
                attemptsOf_rpcPrelude]
              rfl
            refine ⟨q1.trans hendR, ?_, ?_, q4⟩
            · rw [hatr, q2, hcntR, List.filter_cons]
              simp only [isFailEv, if_true]
              simp [List.length_cons]
              omega
            · rw [hatr, q3, hepeR, List.filter_cons]
              simp only [isRpcErrEv, if_true]
              simp [List.length_cons]
              omega
          · have hstep : make_rpc_request j e rc (NetEvent.err code :: rest)
                = (⟨rot.1, e1.now, e1.ji⟩, CallOutcome.ret (some (RpcResult.err code)),
                    (rpcPrelude j e rc).2 ++ [TraceEv.attempt rc (NetEvent.err code)]
                      ++ [TraceEv.rotated rot.2]) := by
              rw [make_rpc_request_err]
              simp only [if_pos hcode, ← he1, ← hst2, ← hrot, htrue, Bool.false_eq_true,
                if_false, hlt]
            rw [hstep]
            have hatr : attemptsOf ((rpcPrelude j e rc).2
                ++ [TraceEv.attempt rc (NetEvent.err code)] ++ [TraceEv.rotated rot.2])
                = [(rc, NetEvent.err code)] := by
              rw [attemptsOf_append, attemptsOf_append, attemptsOf_rpcPrelude]
              rfl
            refine ⟨hendR, ?_, ?_, hurlR⟩
            · rw [hatr, hcntR]; rfl
            · rw [hatr, hepeR]; rfl
      · have hstep : make_rpc_request j e rc (NetEvent.err code :: rest)
            = (⟨st2, e1.now, e1.ji⟩, CallOutcome.ret (some (RpcResult.err code)),
                (rpcPrelude j e rc).2 ++ [TraceEv.attempt rc (NetEvent.err code)]) := by
          rw [make_rpc_request_err]
          simp only [if_neg hcode, ← he1, ← hst2]
        rw [hstep]
        have hatr : attemptsOf ((rpcPrelude j e rc).2
            ++ [TraceEv.attempt rc (NetEvent.err code)]) = [(rc, NetEvent.err code)] := by
          rw [attemptsOf_append, attemptsOf_rpcPrelude]
          rfl
        refine ⟨hend2, ?_, ?_, hurl2⟩
        · rw [hatr, hcnt2]; rfl
        · rw [hatr, hepe2]; rfl
    | exn =>
      set st2 : TokenSnapshot := recordExn e1.st e.now with hst2
      have hcnt2 : st2.errorCount = e.st.errorCount + 1 := by
        show e1.st.errorCount + 1 = _
        rw [p9]
      have hepe2 : epErrTotal st2 = epErrTotal e.st := hepe1
      have hend2 : st2.rpcEndpoints = e.st.rpcEndpoints := p1
      have hurl2 : st2.rpcUrl ∈ st2.rpcEndpoints := hmem1
      have hnd2 : st2.rpcEndpoints.Nodup := hnd1
      by_cases hlt : rc < st2.maxRetries
      · set eAdv : Exec := ⟨st2, e1.now + st2.retryDelay * 3 ^ rc, e1.ji⟩ with heAdv
        have hstep : make_rpc_request j e rc (NetEvent.exn :: rest)
            = ((make_rpc_request j eAdv (rc + 1) rest).1,
                (make_rpc_request j eAdv (rc + 1) rest).2.1,
                ((rpcPrelude j e rc).2 ++ [TraceEv.attempt rc NetEvent.exn])
                  ++ (make_rpc_request j eAdv (rc + 1) rest).2.2) := by
          rw [make_rpc_request_exn]
          simp only [← he1, ← hst2, hlt, if_true, ← heAdv]
        obtain ⟨q1, q2, q3, q4⟩ := ih eAdv (rc + 1) hurl2 hnd2
        rw [hstep]
        have hatr : attemptsOf (((rpcPrelude j e rc).2 ++ [TraceEv.attempt rc NetEvent.exn])
            ++ (make_rpc_request j eAdv (rc + 1) rest).2.2)
            = (rc, NetEvent.exn)
              :: attemptsOf (make_rpc_request j eAdv (rc + 1) rest).2.2 := by
          rw [attemptsOf_append, attemptsOf_append, attemptsOf_rpcPrelude]
          rfl
        refine ⟨q1.trans hend2, ?_, ?_, q4⟩
        · rw [hatr, q2, hcnt2, List.filter_cons]
          simp only [isFailEv, if_true]
          simp [List.length_cons]
          omega
        · rw [hatr, q3, hepe2, List.filter_cons]
          simp only [isRpcErrEv]
          simp
      · have hstep : make_rpc_request j e rc (NetEvent.exn :: rest)
            = (⟨st2, e1.now, e1.ji⟩, CallOutcome.ret none,
                (rpcPrelude j e rc).2 ++ [TraceEv.attempt rc NetEvent.exn]) := by
          rw [make_rpc_request_exn]
          simp only [← he1, ← hst2, hlt, if_false]
        rw [hstep]
        have hatr : attemptsOf ((rpcPrelude j e rc).2 ++ [TraceEv.attempt rc NetEvent.exn])
            = [(rc, NetEvent.exn)] := by
          rw [attemptsOf_append, attemptsOf_rpcPrelude]
          rfl
        refine ⟨hend2, ?_, ?_, hurl2⟩
        · rw [hatr, hcnt2]; rfl
        · rw [hatr, hepe2]; rfl

end RecordingClaims

section DelayClaims

/-- The adaptive doubling `min(request_delay * 2, 120)` never decreases the
delay (below the 120 cap) and respects the cap. -/
theorem ratMin_bounds (d : ℚ) (hpos : 0 < d) (hd : d ≤ 120) :
    d ≤ ratMin (d * 2) 120 ∧ ratMin (d * 2) 120 ≤ 120 := by
  unfold ratMin
  split_ifs with h
  · constructor <;> linarith
  · exact ⟨hd, le_rfl⟩

/-- The sleeps-before-rotation of a trace starting with one attempt prelude:
either the prelude's breaker rotation succeeded (empty list), or the list
starts with this attempt's sleep. -/
theorem sleepsBeforeRot_prelude (j : ℕ → ℚ) (e : Exec) (rc : ℕ) (X : List TraceEv) :
    sleepsBeforeRot ((rpcPrelude j e rc).2 ++ X) = [] ∨
    sleepsBeforeRot ((rpcPrelude j e rc).2 ++ X)
      = ((rpcPrelude j e rc).1.st.requestDelay * 3 ^ rc + j e.ji) :: sleepsBeforeRot X := by
  obtain ⟨-, -, -, -, -, -, -, -, -, -, -, -, p13⟩ := rpcPrelude_st j e rc
  obtain ⟨-, -, -, -, -, -, -, -, -, -, -, -, b13⟩ := breakerPhase_st e
  rw [p13, List.append_assoc]
  rcases b13 with h | ⟨b, h⟩
  · rw [h]
    right
    rfl
  · rw [h]
    cases b
    · right; rfl
    · left; rfl

/-- Monotone-backoff invariant of one `make_rpc_request` run: the adaptive
delay never decreases and stays capped at 120, and the per-attempt sleeps
before the first successful rotation form a non-decreasing chain whose head
is at least `request_delay * 3 ^ retry_count`. -/
theorem governor_delay_mono_aux (j : ℕ → ℚ) (d0 jr : ℚ)
    (hj0 : ∀ n, 0 ≤ j n) (hjr : ∀ n, j n ≤ jr)
    (hd0 : 0 < d0) (hjr2 : jr ≤ 2 * d0) :
    ∀ (script : List NetEvent) (e : Exec) (rc : ℕ),
      d0 ≤ e.st.requestDelay → e.st.requestDelay ≤ 120 →
      e.st.requestDelay ≤ (make_rpc_request j e rc script).1.st.requestDelay ∧
      (make_rpc_request j e rc script).1.st.requestDelay ≤ 120 ∧
      List.Chain' (· ≤ ·) (sleepsBeforeRot (make_rpc_request j e rc script).2.2) ∧
      (∀ q, (sleepsBeforeRot (make_rpc_request j e rc script).2.2).head? = some q →
        e.st.requestDelay * 3 ^ rc ≤ q) := by
  intro script
  induction script with
  | nil =>
    intro e rc hdd hd120
    rw [make_rpc_request_nil]
    exact ⟨le_rfl, hd120, List.chain'_nil, fun q hq => by simp [sleepsBeforeRot] at hq⟩
  | cons ev rest ih =>
    intro e rc hdd hd120
    obtain ⟨p1, p2, p3, p4, p5, p6, p7, p8, p9, p10, p11, p12, p13⟩ := rpcPrelude_st j e rc
    set e1 := (rpcPrelude j e rc).1 with he1
    have hdpos : 0 < e.st.requestDelay := lt_of_lt_of_le hd0 hdd
    have hd1 : e.st.requestDelay ≤ e1.st.requestDelay ∧ e1.st.requestDelay ≤ 120 := by
      rw [p10]
      split_ifs with hcnt
      · exact ratMin_bounds _ hdpos hd120
      · exact ⟨le_rfl, hd120⟩
    have hd1pos : 0 < e1.st.requestDelay := lt_of_lt_of_le hdpos hd1.1
    have h3pow : (1 : ℚ) ≤ 3 ^ rc := one_le_pow₀ (by norm_num)
    have h3pos : (0 : ℚ) < 3 ^ rc := by positivity
    have hbase : e.st.requestDelay * 3 ^ rc ≤ e1.st.requestDelay * 3 ^ rc + j e.ji := by
      have := mul_le_mul_of_nonneg_right hd1.1 h3pos.le
      linarith [hj0 e.ji]
    have hself : e1.st.requestDelay ≤ e1.st.requestDelay * 3 ^ rc :=
      le_mul_of_one_le_right hd1pos.le h3pow
    have hstepup : e1.st.requestDelay * 3 ^ rc + j e.ji
        ≤ e1.st.requestDelay * 3 ^ (rc + 1) := by
      have hA : d0 ≤ e1.st.requestDelay * 3 ^ rc := le_trans (hdd.trans hd1.1) hself
      have hj := hjr e.ji
      rw [pow_succ]
      nlinarith [hA, hj, hjr2]
    cases ev with
    | ok v =>
      rw [make_rpc_request_ok]
      simp only [← he1]
      refine ⟨hd1.1, hd1.2, ?_, ?_⟩
      · rcases sleepsBeforeRot_prelude j e rc [TraceEv.attempt rc (NetEvent.ok v)]
          with hs | hs <;> rw [hs]
        · exact List.chain'_nil
        · exact List.chain'_singleton _
      · intro q hq
        rcases sleepsBeforeRot_prelude j e rc [TraceEv.attempt rc (NetEvent.ok v)]
          with hs | hs <;> rw [hs] at hq
        · simp at hq
        · simp only [sleepsBeforeRot, List.head?_cons, Option.some.injEq] at hq
          rw [← hq]
          exact hbase
    | err code =>
      set sPre : TokenSnapshot := { e1.st with lastRequestTime := some e1.now } with hsPre
      set st2 : TokenSnapshot := recordRpcError sPre e.now with hst2
      by_cases hcode : code = -32005 ∨ code = 429
      · set rot := rotate_rpc_endpoint st2 e1.now with hrot
        have hrotrd : rot.1.requestDelay = e1.st.requestDelay :=
          (rotateLoop_frame e1.now st2.rpcEndpoints.length st2).2.1
        cases htrue : rot.2 with
        | true =>
          have hstep : make_rpc_request j e rc (NetEvent.err code :: rest)
              = ((make_rpc_request j ⟨rot.1, e1.now, e1.ji⟩ rc rest).1,
                  (make_rpc_request j ⟨rot.1, e1.now, e1.ji⟩ rc rest).2.1,
                  ((rpcPrelude j e rc).2 ++ [TraceEv.attempt rc (NetEvent.err code)]
                    ++ [TraceEv.rotated rot.2])
                    ++ (make_rpc_request j ⟨rot.1, e1.now, e1.ji⟩ rc rest).2.2) := by
            rw [make_rpc_request_err]
            simp only [if_pos hcode, ← he1, ← hst2, ← hrot, htrue, if_true]
          obtain ⟨q1, q2, q3, q4⟩ := ih ⟨rot.1, e1.now, e1.ji⟩ rc
            (show d0 ≤ rot.1.requestDelay by rw [hrotrd]; exact hdd.trans hd1.1)
            (show rot.1.requestDelay ≤ 120 by rw [hrotrd]; exact hd1.2)
          rw [hstep]
          have htr : ((rpcPrelude j e rc).2 ++ [TraceEv.attempt rc (NetEvent.err code)]
              ++ [TraceEv.rotated rot.2])
              ++ (make_rpc_request j ⟨rot.1, e1.now, e1.ji⟩ rc rest).2.2
              = (rpcPrelude j e rc).2
                ++ (TraceEv.attempt rc (NetEvent.err code) :: TraceEv.rotated rot.2
                  :: (make_rpc_request j ⟨rot.1, e1.now, e1.ji⟩ rc rest).2.2) := by
            simp
          rw [htr, htrue]
          refine ⟨hd1.1.trans (hrotrd ▸ q1), q2, ?_, ?_⟩
          · rcases sleepsBeforeRot_prelude j e rc
              (TraceEv.attempt rc (NetEvent.err code) :: TraceEv.rotated true
                :: (make_rpc_request j ⟨rot.1, e1.now, e1.ji⟩ rc rest).2.2)
              with hs | hs <;> rw [hs]
            · exact List.chain'_nil
            · exact List.chain'_singleton _
          · intro q hq
            rcases sleepsBeforeRot_prelude j e rc
              (TraceEv.attempt rc (NetEvent.err code) :: TraceEv.rotated true
                :: (make_rpc_request j ⟨rot.1, e1.now, e1.ji⟩ rc rest).2.2)
              with hs | hs <;> rw [hs] at hq
            · simp at hq
            · simp only [sleepsBeforeRot, List.head?_cons, Option.some.injEq] at hq
              rw [← hq]
              exact hbase
        | false =>
          by_cases hlt : rc < rot.1.maxRetries
          · set eAdv : Exec := ⟨rot.1, e1.now + (rot.1.retryDelay * 3 ^ rc + j e1.ji),
              e1.ji + 1⟩ with heAdv
            have hstep : make_rpc_request j e rc (NetEvent.err code :: rest)
                = ((make_rpc_request j eAdv (rc + 1) rest).1,
                    (make_rpc_request j eAdv (rc + 1) rest).2.1,
                    ((rpcPrelude j e rc).2 ++ [TraceEv.attempt rc (NetEvent.err code)]
                      ++ [TraceEv.rotated rot.2])
                      ++ (make_rpc_request j eAdv (rc + 1) rest).2.2) := by
              rw [make_rpc_request_err]
              simp only [if_pos hcode, ← he1, ← hst2, ← hrot, htrue, Bool.false_eq_true,
                if_false, hlt, if_true, ← heAdv]
            obtain ⟨q1, q2, q3, q4⟩ := ih eAdv (rc + 1)
              (show d0 ≤ rot.1.requestDelay by rw [hrotrd]; exact hdd.trans hd1.1)
              (show rot.1.requestDelay ≤ 120 by rw [hrotrd]; exact hd1.2)
            rw [hstep]
            have htr : ((rpcPrelude j e rc).2 ++ [TraceEv.attempt rc (NetEvent.err code)]
                ++ [TraceEv.rotated rot.2])
                ++ (make_rpc_request j eAdv (rc + 1) rest).2.2
                = (rpcPrelude j e rc).2
                  ++ (TraceEv.attempt rc (NetEvent.err code) :: TraceEv.rotated rot.2
                    :: (make_rpc_request j eAdv (rc + 1) rest).2.2) := by
              simp
            rw [htr, htrue]
            have hsX : sleepsBeforeRot
                (TraceEv.attempt rc (NetEvent.err code) :: TraceEv.rotated false
                  :: (make_rpc_request j eAdv (rc + 1) rest).2.2)
                = sleepsBeforeRot (make_rpc_request j eAdv (rc + 1) rest).2.2 := rfl
            refine ⟨hd1.1.trans (hrotrd ▸ q1), q2, ?_, ?_⟩
            · rcases sleepsBeforeRot_prelude j e rc
                (TraceEv.attempt rc (NetEvent.err code) :: TraceEv.rotated false
                  :: (make_rpc_request j eAdv (rc + 1) rest).2.2)
                with hs | hs <;> rw [hs]
              · exact List.chain'_nil
              · rw [hsX]
                refine List.chain'_cons'.2 ⟨?_, q3⟩
                intro y hy
                have hb : rot.1.requestDelay * 3 ^ (rc + 1) ≤ y := q4 y hy
                calc e1.st.requestDelay * 3 ^ rc + j e.ji
                    ≤ e1.st.requestDelay * 3 ^ (rc + 1) := hstepup
                  _ = rot.1.requestDelay * 3 ^ (rc + 1) := by rw [hrotrd]
                  _ ≤ y := hb
            · intro q hq
              rcases sleepsBeforeRot_prelude j e rc
                (TraceEv.attempt rc (NetEvent.err code) :: TraceEv.rotated false
                  :: (make_rpc_request j eAdv (rc + 1) rest).2.2)
                with hs | hs <;> rw [hs] at hq
              · simp at hq
              · simp only [List.head?_cons, Option.some.injEq] at hq
                rw [← hq]
                exact hbase
          · have hstep : make_rpc_request j e rc (NetEvent.err code :: rest)
                = (⟨rot.1, e1.now, e1.ji⟩, CallOutcome.ret (some (RpcResult.err code)),
                    (rpcPrelude j e rc).2 ++ [TraceEv.attempt rc (NetEvent.err code)]
                      ++ [TraceEv.rotated rot.2]) := by
              rw [make_rpc_request_err]
              simp only [if_pos hcode, ← he1, ← hst2, ← hrot, htrue, Bool.false_eq_true,
                if_false, hlt]
            rw [hstep]
            have htr : (rpcPrelude j e rc).2 ++ [TraceEv.attempt rc (NetEvent.err code)]
                ++ [TraceEv.rotated rot.2]
                = (rpcPrelude j e rc).2
                  ++ [TraceEv.attempt rc (NetEvent.err code), TraceEv.rotated rot.2] := by
              simp
            rw [htr, htrue]
            refine ⟨hd1.1.trans hrotrd.symm.le, hrotrd ▸ hd1.2, ?_, ?_⟩
            · rcases sleepsBeforeRot_prelude j e rc
                [TraceEv.attempt rc (NetEvent.err code), TraceEv.rotated false]
                with hs | hs <;> rw [hs]
              · exact List.chain'_nil
              · exact List.chain'_singleton _
            · intro q hq
              rcases sleepsBeforeRot_prelude j e rc
                [TraceEv.attempt rc (NetEvent.err code), TraceEv.rotated false]
                with hs | hs <;> rw [hs] at hq
              · simp at hq
              · simp only [sleepsBeforeRot, List.head?_cons, Option.some.injEq] at hq
                rw [← hq]
                exact hbase
      · have hstep : make_rpc_request j e rc (NetEvent.err code :: rest)
            = (⟨st2, e1.now, e1.ji⟩, CallOutcome.ret (some (RpcResult.err code)),
                (rpcPrelude j e rc).2 ++ [TraceEv.attempt rc (NetEvent.err code)]) := by
          rw [make_rpc_request_err]
          simp only [if_neg hcode, ← he1, ← hst2]
        rw [hstep]
        have hst2rd : st2.requestDelay = e1.st.requestDelay := rfl
        refine ⟨hd1.1.trans hst2rd.symm.le, hst2rd ▸ hd1.2, ?_, ?_⟩
        · rcases sleepsBeforeRot_prelude j e rc [TraceEv.attempt rc (NetEvent.err code)]
            with hs | hs <;> rw [hs]
          · exact List.chain'_nil
          · exact List.chain'_singleton _
        · intro q hq
          rcases sleepsBeforeRot_prelude j e rc [TraceEv.attempt rc (NetEvent.err code)]
            with hs | hs <;> rw [hs] at hq
          · simp at hq
          · simp only [sleepsBeforeRot, List.head?_cons, Option.some.injEq] at hq
            rw [← hq]
            exact hbase
    | exn =>
      set st2 : TokenSnapshot := recordExn e1.st e.now with hst2
      have hst2rd : st2.requestDelay = e1.st.requestDelay := rfl
      by_cases hlt : rc < st2.maxRetries
      · set eAdv : Exec := ⟨st2, e1.now + st2.retryDelay * 3 ^ rc, e1.ji⟩ with heAdv
        have hstep : make_rpc_request j e rc (NetEvent.exn :: rest)
            = ((make_rpc_request j eAdv (rc + 1) rest).1,
                (make_rpc_request j eAdv (rc + 1) rest).2.1,
                ((rpcPrelude j e rc).2 ++ [TraceEv.attempt rc NetEvent.exn])
                  ++ (make_rpc_request j eAdv (rc + 1) rest).2.2) := by
          rw [make_rpc_request_exn]
          simp only [← he1, ← hst2, hlt, if_true, ← heAdv]
        obtain ⟨q1, q2, q3, q4⟩ := ih eAdv (rc + 1)
          (show d0 ≤ st2.requestDelay by rw [hst2rd]; exact hdd.trans hd1.1)
          (show st2.requestDelay ≤ 120 by rw [hst2rd]; exact hd1.2)
        rw [hstep]
        have htr : ((rpcPrelude j e rc).2 ++ [TraceEv.attempt rc NetEvent.exn])
            ++ (make_rpc_request j eAdv (rc + 1) rest).2.2
            = (rpcPrelude j e rc).2
              ++ (TraceEv.attempt rc NetEvent.exn
                :: (make_rpc_request j eAdv (rc + 1) rest).2.2) := by
          simp
        rw [htr]
        have hsX : sleepsBeforeRot
            (TraceEv.attempt rc NetEvent.exn :: (make_rpc_request j eAdv (rc + 1) rest).2.2)
            = sleepsBeforeRot (make_rpc_request j eAdv (rc + 1) rest).2.2 := rfl
        refine ⟨hd1.1.trans (hst2rd ▸ q1), q2, ?_, ?_⟩
        · rcases sleepsBeforeRot_prelude j e rc
            (TraceEv.attempt rc NetEvent.exn :: (make_rpc_request j eAdv (rc + 1) rest).2.2)
            with hs | hs <;> rw [hs]
          · exact List.chain'_nil
          · rw [hsX]
            refine List.chain'_cons'.2 ⟨?_, q3⟩
            intro y hy
            have hb : st2.requestDelay * 3 ^ (rc + 1) ≤ y := q4 y hy
            calc e1.st.requestDelay * 3 ^ rc + j e.ji
                ≤ e1.st.requestDelay * 3 ^ (rc + 1) := hstepup
              _ = st2.requestDelay * 3 ^ (rc + 1) := by rw [hst2rd]
              _ ≤ y := hb
        · intro q hq
          rcases sleepsBeforeRot_prelude j e rc
            (TraceEv.attempt rc NetEvent.exn :: (make_rpc_request j eAdv (rc + 1) rest).2.2)
            with hs | hs <;> rw [hs] at hq
          · simp at hq
          · simp only [List.head?_cons, Option.some.injEq] at hq
            rw [← hq]
            exact hbase
      · have hstep : make_rpc_request j e rc (NetEvent.exn :: rest)
            = (⟨st2, e1.now, e1.ji⟩, CallOutcome.ret none,
                (rpcPrelude j e rc).2 ++ [TraceEv.attempt rc NetEvent.exn]) := by
          rw [make_rpc_request_exn]
          simp only [← he1, ← hst2, hlt, if_false]
        rw [hstep]
        refine ⟨hd1.1.trans hst2rd.symm.le, hst2rd ▸ hd1.2, ?_, ?_⟩
        · rcases sleepsBeforeRot_prelude j e rc [TraceEv.attempt rc NetEvent.exn]
            with hs | hs <;> rw [hs]
          · exact List.chain'_nil
          · exact List.chain'_singleton _
        · intro q hq
          rcases sleepsBeforeRot_prelude j e rc [TraceEv.attempt rc NetEvent.exn]
            with hs | hs <;> rw [hs] at hq
          · simp at hq
          · simp only [sleepsBeforeRot, List.head?_cons, Option.some.injEq] at hq
            rw [← hq]
            exact hbase

end DelayClaims

section DelayClaims2

/-- C1 (amended): a cleanly succeeding attempt leaves the failure counter
and the adaptive delay exactly as the prelude computed them — `error_count`
is unchanged and `request_delay` keeps its (possibly doubled) value, with no
reset to the configured baseline; independently, across any run the adaptive
delay never decreases, and within a single call the per-attempt delay is
non-decreasing until a successful rotation occurs (for any jitter draws
within `[0, jitter_range]`, with `jitter_range` at most twice the current
delay and the delay within its 120-second cap). -/
theorem success_no_reset_and_monotone_backoff (j : ℕ → ℚ) (e : Exec) (rc : ℕ) :
    (∀ (v : ℕ) (rest : List NetEvent),
      (make_rpc_request j e rc (NetEvent.ok v :: rest)).2.1
        = CallOutcome.ret (some (RpcResult.ok v)) ∧
      (make_rpc_request j e rc (NetEvent.ok v :: rest)).1.st.errorCount = e.st.errorCount ∧
      (make_rpc_request j e rc (NetEvent.ok v :: rest)).1.st.requestDelay
        = (if 0 < e.st.errorCount then ratMin (e.st.requestDelay * 2) 120
           else e.st.requestDelay)) ∧
    (∀ (script : List NetEvent) (jr : ℚ),
      (∀ n, 0 ≤ j n) → (∀ n, j n ≤ jr) →
      0 < e.st.requestDelay → e.st.requestDelay ≤ 120 →
      jr ≤ 2 * e.st.requestDelay →
      e.st.requestDelay ≤ (make_rpc_request j e rc script).1.st.requestDelay ∧
      List.Chain' (· ≤ ·) (sleepsBeforeRot (make_rpc_request j e rc script).2.2)) := by
  constructor
  · intro v rest
    obtain ⟨-, -, -, -, -, -, -, -, p9, p10, -, -, -⟩ := rpcPrelude_st j e rc
    rw [make_rpc_request_ok]
    exact ⟨rfl, p9, p10⟩
  · intro script jr hj0 hjr hpos h120 hjr2
    obtain ⟨h1, -, h3, -⟩ :=
      governor_delay_mono_aux j e.st.requestDelay jr hj0 hjr hpos hjr2 script e rc
        le_rfl h120
    exact ⟨h1, h3⟩

/-- Counterexample to C1 as stated: from the fresh configuration (baseline
delay 5, `error_count` 0), one transport failure followed by a clean success
returns the success but leaves `request_delay = 10` and `error_count = 1` —
neither is reset on success. -/
theorem success_does_not_reset_counterexample :
    (make_rpc_request zeroJitter initExec 0 [NetEvent.exn, NetEvent.ok 1]).2.1
      = CallOutcome.ret (some (RpcResult.ok 1)) ∧
    initState.requestDelay = 5 ∧
    (make_rpc_request zeroJitter initExec 0
      [NetEvent.exn, NetEvent.ok 1]).1.st.requestDelay = 10 ∧
    (make_rpc_request zeroJitter initExec 0
      [NetEvent.exn, NetEvent.ok 1]).1.st.errorCount = 1 ∧
    ¬ ((make_rpc_request zeroJitter initExec 0
          [NetEvent.exn, NetEvent.ok 1]).1.st.requestDelay = initState.requestDelay ∧
       (make_rpc_request zeroJitter initExec 0
          [NetEvent.exn, NetEvent.ok 1]).1.st.errorCount = 0) := by
  refine ⟨?_, rfl, ?_, ?_, ?_⟩ <;>
    norm_num [make_rpc_request, rpcPrelude, breakerPhase, check_circuit_breaker,
      breakerEngage, rotate_rpc_endpoint, rotateLoop, endpointAvailable, recordExn,
      recordRpcError, ratMin, initState, initExec, zeroJitter, Option.some_ne_none,
      reduceIte]

/-- Witness for the amended C1: with zero jitter draws and the fresh
configuration, a rate-limited attempt, a transport failure and a success in
one call leave a non-decreasing pre-rotation sleep chain, and the final
delay is at least the starting delay. -/
theorem success_no_reset_and_monotone_backoff_witness :
    initExec.st.requestDelay
      ≤ (make_rpc_request zeroJitter initExec 0
          [NetEvent.err 429, NetEvent.exn, NetEvent.ok 3]).1.st.requestDelay ∧
    List.Chain' (· ≤ ·) (sleepsBeforeRot (make_rpc_request zeroJitter initExec 0
      [NetEvent.err 429, NetEvent.exn, NetEvent.ok 3]).2.2) :=
  (success_no_reset_and_monotone_backoff zeroJitter initExec 0).2
    [NetEvent.err 429, NetEvent.exn, NetEvent.ok 3] 2
    (fun _ => le_rfl) (fun _ => by norm_num [zeroJitter])
    (by norm_num [initExec, initState]) (by norm_num [initExec, initState])
    (by norm_num [initExec, initState])

/-- Witness for C7's conservation statement at a one-error script from the
fresh configuration. -/
theorem failure_recording_totals_witness :
    (make_rpc_request zeroJitter initExec 0 [NetEvent.err 7]).1.st.errorCount
      = initExec.st.errorCount
        + ((attemptsOf (make_rpc_request zeroJitter initExec 0
            [NetEvent.err 7]).2.2).filter (fun a => isFailEv a.2)).length ∧
    epErrTotal (make_rpc_request zeroJitter initExec 0 [NetEvent.err 7]).1.st
      = epErrTotal initExec.st
        + ((attemptsOf (make_rpc_request zeroJitter initExec 0
            [NetEvent.err 7]).2.2).filter (fun a => isRpcErrEv a.2)).length := by
  have h := failure_recording_totals zeroJitter [NetEvent.err 7] initExec 0
    (by decide) (by decide)
  exact ⟨h.2.1, h.2.2.1⟩

/-- Counterexample to C7 as stated: a transport-level failure (exception) at
the retry cap is recorded against the breaker (`error_count` and one error
timestamp) but not against the current endpoint: its error count stays 0 and
its last-error stamp stays unset. -/
theorem transport_failure_endpoint_not_recorded :
    (make_rpc_request zeroJitter initExec 3 [NetEvent.exn]).2.1 = CallOutcome.ret none ∧
    (make_rpc_request zeroJitter initExec 3 [NetEvent.exn]).1.st.errorCount = 1 ∧
    (make_rpc_request zeroJitter initExec 3
      [NetEvent.exn]).1.st.errorTimestamps.length = 1 ∧
    initExec.st.rpcUrl = 0 ∧
    (make_rpc_request zeroJitter initExec 3 [NetEvent.exn]).1.st.endpointErrors 0 = 0 ∧
    (make_rpc_request zeroJitter initExec 3 [NetEvent.exn]).1.st.endpointLastError 0
      = none ∧
    (make_rpc_request zeroJitter initExec 3 [NetEvent.exn]).1.st.endpointErrors 0 ≠ 1 := by
  refine ⟨?_, ?_, ?_, rfl, ?_, ?_, ?_⟩ <;>
    norm_num [make_rpc_request, rpcPrelude, breakerPhase, check_circuit_breaker,
      breakerEngage, rotate_rpc_endpoint, rotateLoop, endpointAvailable, recordExn,
      recordRpcError, ratMin, initState, initExec, zeroJitter, Option.some_ne_none,
      reduceIte]

end DelayClaims2

section SchedulerClaims

/-- The `for/continue/break` scan of `monitor_market_cap` computes the
highest threshold that progress has reached — the spec-side reading
(`highestLE`, maximum of the entries `≤ progress`). -/
theorem currentThreshold_eq_highestLE (p : ℚ) :
    currentThresholdLoop p progressThresholds none = highestLE progressThresholds p := by
  rcases lt_or_le p 85 with h85 | h85
  · have n85 : ¬ (85 : ℚ) ≤ p := not_le.mpr h85
    have n90 : ¬ (90 : ℚ) ≤ p := by intro h; linarith
    have n95 : ¬ (95 : ℚ) ≤ p := by intro h; linarith
    have n97 : ¬ (97 : ℚ) ≤ p := by intro h; linarith
    have n99 : ¬ (99 : ℚ) ≤ p := by intro h; linarith
    norm_num [currentThresholdLoop, progressThresholds, highestLE, List.filter,
      List.max?, n85, n90, n95, n97, n99]
  · rcases lt_or_le p 90 with h90 | h90
    · have n90 : ¬ (90 : ℚ) ≤ p := not_le.mpr h90
      have n95 : ¬ (95 : ℚ) ≤ p := by intro h; linarith
      have n97 : ¬ (97 : ℚ) ≤ p := by intro h; linarith
      have n99 : ¬ (99 : ℚ) ≤ p := by intro h; linarith
      norm_num [currentThresholdLoop, progressThresholds, highestLE, List.filter,
        List.max?, h85, n90, n95, n97, n99]
    · rcases lt_or_le p 95 with h95 | h95
      · have n95 : ¬ (95 : ℚ) ≤ p := not_le.mpr h95
        have n97 : ¬ (97 : ℚ) ≤ p := by intro h; linarith
        have n99 : ¬ (99 : ℚ) ≤ p := by intro h; linarith
        norm_num [currentThresholdLoop, progressThresholds, highestLE, List.filter,
          List.max?, List.foldl, max_def, h85, h90, n95, n97, n99]
      · rcases lt_or_le p 97 with h97 | h97
        · have n97 : ¬ (97 : ℚ) ≤ p := not_le.mpr h97
          have n99 : ¬ (99 : ℚ) ≤ p := by intro h; linarith
          norm_num [currentThresholdLoop, progressThresholds, highestLE, List.filter,
            List.max?, List.foldl, max_def, h85, h90, h95, n97, n99]
        · rcases lt_or_le p 99 with h99 | h99
          · have n99 : ¬ (99 : ℚ) ≤ p := not_le.mpr h99
            norm_num [currentThresholdLoop, progressThresholds, highestLE, List.filter,
              List.max?, List.foldl, max_def, h85, h90, h95, h97, n99]
          · norm_num [currentThresholdLoop, progressThresholds, highestLE, List.filter,
              List.max?, List.foldl, max_def, h85, h90, h95, h97, h99]

/-- The snapshot-trigger condition of lines 562-563 fires exactly when the
current threshold differs from the last crossed one, including the
none-to-first transition and downward crossings. -/
theorem threshold_fire_cond_iff (last cur : Option ℚ) :
    ((last ≠ none ∧ cur ≠ last) ∨ (last = none ∧ cur ≠ none)) ↔ cur ≠ last := by
  cases last <;> simp

/-- One due check emits exactly one threshold snapshot when the computed
threshold differs from the last crossed one, and none otherwise. -/
theorem threshold_snapshot_count (snapOk : ℕ → Bool) (st : SchedState) (tk : TickInput)
    (v p : ℚ) (hp : tk.progressInfo = some (v, p)) :
    ((monitorCheck snapOk st tk).2.1.filter
        (fun k => decide (k = SnapKind.threshold))).length
      = if currentThresholdLoop p progressThresholds none ≠ st.lastThreshold
        then 1 else 0 := by
  simp only [monitorCheck, hp]
  by_cases hfire : currentThresholdLoop p progressThresholds none ≠ st.lastThreshold
  · rw [if_pos ((threshold_fire_cond_iff st.lastThreshold _).mpr hfire), if_pos hfire]
    rcases hdet : determine_snapshot_interval p with - | iv <;>
      simp only [hdet] <;>
      (repeat' split) <;>
      simp_all [List.filter, takeSnap]
  · rw [if_neg (fun h => hfire ((threshold_fire_cond_iff st.lastThreshold _).mp h)),
      if_neg hfire]
    rcases hdet : determine_snapshot_interval p with - | iv <;>
      simp only [hdet] <;>
      (repeat' split) <;>
      simp_all [List.filter, takeSnap]

end SchedulerClaims

section SchedulerClaims2

/-- C4: the scheduler's threshold scan computes the highest entry of
`[85, 90, 95, 97, 99]` at most the current progress; a threshold snapshot is
triggered exactly when that value differs from the last crossed threshold
(including none-to-first and downward transitions); and the progress
sequence `[80, 86, 86, 92, 86]` yields exactly three threshold snapshots. -/
theorem threshold_crossing_fires_exactly_once :
    (∀ p : ℚ, currentThresholdLoop p progressThresholds none
      = highestLE progressThresholds p) ∧
    (∀ last cur : Option ℚ,
      ((last ≠ none ∧ cur ≠ last) ∨ (last = none ∧ cur ≠ none)) ↔ cur ≠ last) ∧
    (∀ (snapOk : ℕ → Bool) (st : SchedState) (tk : TickInput) (v p : ℚ),
      tk.progressInfo = some (v, p) →
      ((monitorCheck snapOk st tk).2.1.filter
          (fun k => decide (k = SnapKind.threshold))).length
        = if currentThresholdLoop p progressThresholds none ≠ st.lastThreshold
          then 1 else 0) ∧
    ((monitor_market_cap allSnapsOk 0
        [⟨300, some (1, 80)⟩, ⟨600, some (1, 86)⟩, ⟨900, some (1, 86)⟩,
         ⟨1200, some (1, 92)⟩, ⟨1500, some (1, 86)⟩]).2.filter
          (fun k => decide (k = SnapKind.threshold))).length = 3 := by
  refine ⟨currentThreshold_eq_highestLE, threshold_fire_cond_iff,
    threshold_snapshot_count, ?_⟩
  norm_num [monitor_market_cap, monitorLoop, monitorCheck, takeSnap,
    currentThresholdLoop, progressThresholds, determine_snapshot_interval, allSnapsOk,
    Option.some_ne_none, reduceIte, List.filter]
  decide

/-- Witness for C4's per-check statement: a due check at progress 86 from a
fresh scheduler state (no threshold crossed yet) emits exactly one threshold
snapshot. -/
theorem threshold_crossing_fires_exactly_once_witness :
    ((monitorCheck allSnapsOk
        ⟨0, none, 0, none, none, none, 1⟩ ⟨300, some (1, 86)⟩).2.1.filter
        (fun k => decide (k = SnapKind.threshold))).length = 1 := by
  have h := threshold_crossing_fires_exactly_once.2.2.1 allSnapsOk
    ⟨0, none, 0, none, none, none, 1⟩ ⟨300, some (1, 86)⟩ 1 86 rfl
  rw [h]
  norm_num [currentThresholdLoop, progressThresholds]
  decide

/-- Ticks below the check interval do not change the scheduler state. -/
theorem monitorLoop_skip (snapOk : ℕ → Bool) :
    ∀ (pre : List TickInput) (st : SchedState) (l : List TickInput),
      (∀ u ∈ pre, u.now - st.lastCheckTime < 300) →
      monitorLoop snapOk st (pre ++ l) = monitorLoop snapOk st l := by
  intro pre
  induction pre with
  | nil => intro st l _; rfl
  | cons u pre ih =>
    intro st l hpre
    rw [List.cons_append, monitorLoop,
      if_neg (not_le.mpr (hpre u (List.mem_cons_self u pre)))]
    exact ih st l (fun x hx => hpre x (List.mem_cons_of_mem u hx))

/-- C3 (amended): when the first due progress check reports
`progress_percent = 100`, the scheduler takes exactly three snapshots — the
unconditional initial baseline, a threshold-crossing snapshot (none → 99),
and the final snapshot — and then ends the loop, consuming no further
ticks. -/
theorem first_check_at_target_three_snapshots (snapOk : ℕ → Bool) (t0 v : ℚ)
    (pre : List TickInput) (tk : TickInput) (rest : List TickInput)
    (hok : ∀ n, snapOk n = true)
    (hpre : ∀ u ∈ pre, u.now - t0 < 300)
    (hdue : 300 ≤ tk.now - t0)
    (hprog : tk.progressInfo = some (v, 100)) :
    (monitor_market_cap snapOk t0 (pre ++ tk :: rest)).2
      = [SnapKind.initial, SnapKind.threshold, SnapKind.final] := by
  have hnn : ¬ (tk.now + (300 : ℚ) ≤ tk.now) := by linarith
  simp only [monitor_market_cap]
  rw [monitorLoop_skip snapOk pre _ (tk :: rest) hpre, monitorLoop, if_pos hdue]
  norm_num [monitorCheck, hprog, takeSnap, hok, currentThresholdLoop,
    progressThresholds, determine_snapshot_interval, hnn, Option.some_ne_none,
    reduceIte]

/-- Counterexample to C3 as stated: with every snapshot succeeding and
progress 100 reported at the first due check, the scheduler takes three
snapshots (initial, threshold-crossing, final), not two. -/
theorem two_snapshots_claim_counterexample :
    (monitor_market_cap allSnapsOk 0
        [⟨300, some (500, 100)⟩, ⟨600, some (500, 100)⟩]).2
      = [SnapKind.initial, SnapKind.threshold, SnapKind.final] ∧
    (monitor_market_cap allSnapsOk 0
        [⟨300, some (500, 100)⟩, ⟨600, some (500, 100)⟩]).2.length = 3 ∧
    (monitor_market_cap allSnapsOk 0
        [⟨300, some (500, 100)⟩, ⟨600, some (500, 100)⟩]).2.length ≠ 2 := by
  refine ⟨?_, ?_, ?_⟩ <;>
    norm_num [monitor_market_cap, monitorLoop, monitorCheck, takeSnap,
      currentThresholdLoop, progressThresholds, determine_snapshot_interval, allSnapsOk,
      Option.some_ne_none, reduceIte]

/-- Witness for the amended C3 at a concrete tick stream whose second tick is
never consumed. -/
theorem first_check_at_target_three_snapshots_witness :
    (monitor_market_cap allSnapsOk 0 ([] ++ (⟨300, some (7, 100)⟩ : TickInput)
        :: [⟨600, none⟩])).2
      = [SnapKind.initial, SnapKind.threshold, SnapKind.final] :=
  first_check_at_target_three_snapshots allSnapsOk 0 7 [] ⟨300, some (7, 100)⟩
    [⟨600, none⟩] (fun _ => rfl) (by intro u hu; simp at hu) (by norm_num) rfl

end SchedulerClaims2
